import Mathlib

/-!
Financial assistant: ledger filtering, aggregation and persistence.

A shallow embedding of `src/App/app.js`.  The module-level variables
`appData`, `selectedMonth`, `selectedYear` and the `localStorage` entry
`finAssistData` become the fields of an explicit state record, and every
function of the source that reads or writes them becomes a function on that
record.  DOM rendering and chart drawing are presentation and are left out.

Conventions of the embedding:

* A JavaScript number is `JSNum`: `NaN`, a finite value or an infinity.  The
  operations `JSNum.add` and `JSNum.sub` are exact on finite values.  The
  rounding of double arithmetic is given by `toDouble` and `doubleAdd`, and the
  two functions that add amounts in different orders exist with the addition as
  a parameter (`getTotalExpensesWith`, `getExpensesByCategoryWith`).  The sign
  of zero is not represented.
* The `Date` constructor of the runtime is a parameter `D : DateCtor`; it maps
  the text of a `date` property to the fields the program reads (`getTime`,
  `getMonth`, `getFullYear`) or to nothing for an `Invalid Date`.  The month
  and year that the program works with are the ones the runtime reports in
  local time; the date that the text writes is `writtenDate`.  Two instances are
  given: `isoDate` for a machine whose zone is UTC and `pacificDate` for a
  machine whose zone is behind UTC.
* `Date.now()` and the values read from the form are arguments of the submit
  handlers; the amount argument is what `parseFloat` returned.
* Records are typed: an id is an integer, labels and dates are strings, an
  amount is a number or `null`.  The text kept in `localStorage` is represented
  by what `JSON.parse` makes of it (`SlotText`), and `JSON.stringify` by the
  JSON value its output denotes; the characters of the text are not modelled.
* The object `categories` is the list of its own properties, and a read of a
  name it does not own goes to the properties that every object inherits.
-/

namespace FinAssist

/-! ## JavaScript numbers and the values of an `amount` property -/

/-- A JavaScript number: `NaN`, a finite value, or one of the two infinities.
Finite values are exact; the rounding of double arithmetic is given apart, by
`toDouble` and `doubleAdd`.  The sign of zero is not represented. -/
inductive JSNum where
  | nan
  | num (q : ℚ)
  | posInf
  | negInf
  deriving DecidableEq, Repr

namespace JSNum

/-- The binary `+` on numbers, without rounding: `NaN` is absorbing and the
sum of the two opposite infinities is `NaN`. -/
def add : JSNum → JSNum → JSNum
  | num a, num b => num (a + b)
  | nan, _ => nan
  | _, nan => nan
  | posInf, negInf => nan
  | negInf, posInf => nan
  | posInf, _ => posInf
  | _, posInf => posInf
  | negInf, _ => negInf
  | _, negInf => negInf

/-- The binary `-` on numbers, without rounding: `NaN` is absorbing and the
difference of two equal infinities is `NaN`. -/
def sub : JSNum → JSNum → JSNum
  | num a, num b => num (a - b)
  | nan, _ => nan
  | _, nan => nan
  | posInf, posInf => nan
  | negInf, negInf => nan
  | posInf, _ => posInf
  | _, negInf => posInf
  | negInf, _ => negInf
  | _, posInf => negInf

/-- Strict equality `===` on numbers: `NaN` is equal to nothing, itself included. -/
def strictEq : JSNum → JSNum → Bool
  | num a, num b => decide (a = b)
  | posInf, posInf => true
  | negInf, negInf => true
  | _, _ => false

/-- The comparison `<` on numbers: false as soon as one side is `NaN`. -/
def lt : JSNum → JSNum → Bool
  | num a, num b => decide (a < b)
  | negInf, num _ => true
  | negInf, posInf => true
  | num _, posInf => true
  | _, _ => false

/-- The comparison `>` on numbers. -/
def gt (a b : JSNum) : Bool := lt b a

/-- The conversion `ToBoolean` on numbers: `NaN` and zero are falsy. -/
def truthy : JSNum → Bool
  | num q => decide (q ≠ 0)
  | nan => false
  | posInf => true
  | negInf => true

end JSNum

/-- The value of an `amount` property: a number, or `null` (what a `NaN`
amount becomes once it went through the persisted snapshot). -/
inductive JSVal where
  | null
  | number (n : JSNum)
  deriving DecidableEq, Repr

namespace JSVal

/-- The conversion `ToNumber`: `null` converts to zero. -/
def toNumber : JSVal → JSNum
  | null => JSNum.num 0
  | number n => n

/-- The conversion `ToBoolean`: `null` is falsy. -/
def truthy : JSVal → Bool
  | null => false
  | number n => n.truthy

end JSVal

/-- The expression `x + item.amount` with `x` a number: the amount is
converted with `ToNumber` and added. -/
def plusAmount (x : JSNum) (amount : JSVal) : JSNum := x.add amount.toNumber

/-! ## Dates -/

/-- What the program reads from a valid `Date` object. -/
structure DateObj where
  /-- The time value `getTime()`, in milliseconds since the epoch. -/
  time : Int
  /-- The local month `getMonth()`, 0 to 11. -/
  month : Fin 12
  /-- The local year `getFullYear()`. -/
  fullYear : Int
  deriving DecidableEq, Repr

/-- The constructor `new Date(text)`: `none` stands for an `Invalid Date`. -/
abbrev DateCtor := String → Option DateObj

/-- The call `new Date(text).getMonth()`: `NaN` on an `Invalid Date`. -/
def getMonth (D : DateCtor) (text : String) : JSNum :=
  match D text with
  | some d => JSNum.num (d.month.val : ℚ)
  | none => JSNum.nan

/-- The call `new Date(text).getFullYear()`: `NaN` on an `Invalid Date`. -/
def getFullYear (D : DateCtor) (text : String) : JSNum :=
  match D text with
  | some d => JSNum.num (d.fullYear : ℚ)
  | none => JSNum.nan

/-- The value of a decimal digit character. -/
def digitVal (c : Char) : Option Nat :=
  if c.isDigit then some (c.toNat - 48) else none

/-- The number written by a list of decimal digits. -/
def digitsVal : List Char → Option Nat
  | [] => some 0
  | c :: cs =>
    match digitVal c, digitsVal cs with
    | some d, some r => some (d * 10 ^ cs.length + r)
    | _, _ => none

/-- Number of days of a month (1 to 12) of the proleptic Gregorian calendar. -/
def daysInMonth (y : Nat) (m : Nat) : Nat :=
  if m = 2 then
    (if (y % 4 = 0 ∧ y % 100 ≠ 0) ∨ y % 400 = 0 then 29 else 28)
  else if m = 4 ∨ m = 6 ∨ m = 9 ∨ m = 11 then 30 else 31

/-- Days from 1970-01-01 to the civil date `y-m-d` (month 1 to 12). -/
def daysFromCivil (y m d : Nat) : Int :=
  let y1 : Int := if m ≤ 2 then (y : Int) - 1 else (y : Int)
  let era : Int := y1 / 400
  let yoe : Int := y1 - era * 400
  let mp : Int := ((m : Int) + 9) % 12
  let doy : Int := (153 * mp + 2) / 5 + (d : Int) - 1
  let doe : Int := yoe * 365 + yoe / 4 - yoe / 100 + doy
  era * 146097 + doe - 719468

/-- A reference instance of the `Date` constructor, used for the concrete
scenarios: the runtime of a machine whose local zone is UTC, reading the
date-only form `YYYY-MM-DD` that a date input produces.  Any other text,
the empty text included, gives an `Invalid Date`. -/
def isoDate : DateCtor := fun text =>
  match text.toList with
  | [y1, y2, y3, y4, '-', m1, m2, '-', d1, d2] =>
    match digitsVal [y1, y2, y3, y4], digitsVal [m1, m2], digitsVal [d1, d2] with
    | some y, some m, some d =>
      if h : 1 ≤ m ∧ m ≤ 12 ∧ 1 ≤ d ∧ d ≤ daysInMonth y m then
        some
          { time := daysFromCivil y m d * 86400000
            month := ⟨m - 1, by omega⟩
            fullYear := (y : Int) }
      else none
    | _, _, _ => none
  | _ => none

/-- The civil date that a date-only text `YYYY-MM-DD` writes: year, month (1
to 12) and day.  This is the date of the record as the user entered it, whatever
the zone of the machine. -/
def writtenDate (text : String) : Option (Nat × Nat × Nat) :=
  match text.toList with
  | [y1, y2, y3, y4, '-', m1, m2, '-', d1, d2] =>
    match digitsVal [y1, y2, y3, y4], digitsVal [m1, m2], digitsVal [d1, d2] with
    | some y, some m, some d =>
      if 1 ≤ m ∧ m ≤ 12 ∧ 1 ≤ d ∧ d ≤ daysInMonth y m then some (y, m, d) else none
    | _, _, _ => none
  | _ => none

/-- The civil day before `y-m-d`. -/
def previousDay (y m d : Nat) : Nat × Nat × Nat :=
  if 1 < d then (y, m, d - 1)
  else if 1 < m then (y, m - 1, daysInMonth y (m - 1))
  else (y - 1, 12, 31)

/-- A second instance of the `Date` constructor: the runtime of a machine
whose local zone is behind UTC (eight hours, as `America/Los_Angeles` in
winter).  A date-only text is read as midnight UTC of the written day, so its
time value is the one `isoDate` gives, and `getMonth` and `getFullYear` report
the local date at that instant, which is the evening of the day before. -/
def pacificDate : DateCtor := fun text =>
  match writtenDate text with
  | some (y, m, d) =>
    some
      { time := daysFromCivil y m d * 86400000
        month := ⟨((previousDay y m d).2.1 - 1) % 12, Nat.mod_lt _ (by decide)⟩
        fullYear := ((previousDay y m d).1 : Int) }
  | none => none

/-! ## Records, ledger and application state -/

/-- An income record, as built by `handleIncomeSubmit`. -/
structure Income where
  id : Int
  source : String
  amount : JSVal
  date : String
  type : String
  deriving DecidableEq, Repr

/-- An expense record, as built by `handleExpenseSubmit`. -/
structure Expense where
  id : Int
  name : String
  category : String
  amount : JSVal
  date : String
  type : String
  deriving DecidableEq, Repr

/-- The data store `appData`, when it has the shape the program gives it. -/
structure Ledger where
  income : List Income
  expenses : List Expense
  deriving DecidableEq, Repr

/-- The initial value of `appData`. -/
def emptyLedger : Ledger := { income := [], expenses := [] }

/-- A parsed JSON value. -/
inductive Json where
  | null
  | bool (b : Bool)
  | num (q : ℚ)
  | str (s : String)
  | arr (items : List Json)
  | obj (members : List (String × Json))

/-- The text held under the `localStorage` key `finAssistData`, represented by
what the runtime makes of it: the empty text (falsy), a text that `JSON.parse`
rejects, or a JSON text, given by the value it denotes. -/
inductive SlotText where
  | empty
  | malformed
  | json (v : Json)

/-- The module-level state of the program. -/
structure AppState where
  /-- The data store `appData`. -/
  appData : Ledger
  /-- The variable `selectedMonth`. -/
  selectedMonth : JSNum
  /-- The variable `selectedYear`. -/
  selectedYear : JSNum
  /-- The `localStorage` entry `finAssistData`; `none` when the key is absent. -/
  storage : Option SlotText

/-! ## Filtering by the selected month -/

/-- The test of both filters: the month and the year read from the date of
the record are strictly equal to the selected ones. -/
def matchesSelected (D : DateCtor) (s : AppState) (date : String) : Bool :=
  (getMonth D date).strictEq s.selectedMonth && (getFullYear D date).strictEq s.selectedYear

/-- The function `getFilteredIncome`. -/
def getFilteredIncome (D : DateCtor) (s : AppState) : List Income :=
  s.appData.income.filter (fun item => matchesSelected D s item.date)

/-- The function `getFilteredExpenses`. -/
def getFilteredExpenses (D : DateCtor) (s : AppState) : List Expense :=
  s.appData.expenses.filter (fun item => matchesSelected D s item.date)

/-- The runtime reads the date text `text` as a date of the month `month` (0
to 11) of the year `year`: `D` gives a valid date whose local month and year
are these.  This is the reading the program works with; the date that the text
itself writes is `writtenDate`, and `WrittenIn` is the wording of the
specification. -/
def FallsIn (D : DateCtor) (text : String) (month year : JSNum) : Prop :=
  ∃ d, D text = some d ∧ month = JSNum.num (d.month.val : ℚ) ∧ year = JSNum.num (d.fullYear : ℚ)

instance (D : DateCtor) (text : String) (month year : JSNum) :
    Decidable (FallsIn D text month year) :=
  match h : D text with
  | some d =>
    if hm : month = JSNum.num (d.month.val : ℚ) ∧ year = JSNum.num (d.fullYear : ℚ) then
      isTrue ⟨d, h, hm.1, hm.2⟩
    else
      isFalse (fun ⟨d1, h1, h2, h3⟩ => by
        rw [h] at h1
        cases h1
        exact hm ⟨h2, h3⟩)
  | none => isFalse (fun ⟨d1, h1, _, _⟩ => by rw [h] at h1; cases h1)

/-- The wording of the specification: the date that `text` writes falls in the
calendar month `month` (0 to 11) of the year `year`. -/
def WrittenIn (text : String) (month year : JSNum) : Prop :=
  ∃ y m d, writtenDate text = some (y, m, d) ∧ month = JSNum.num (((m - 1 : ℕ) : ℚ)) ∧
    year = JSNum.num (y : ℚ)

/-! ## Persistence -/

/-- The JSON form of an `amount` property: `JSON.stringify` writes a finite
number as it is and every other number (`NaN`, the infinities) as `null`. -/
def encodeAmount : JSVal → Json
  | JSVal.null => Json.null
  | JSVal.number (JSNum.num q) => Json.num q
  | JSVal.number _ => Json.null

/-- The JSON form of an income record, properties in creation order. -/
def encodeIncome (item : Income) : Json :=
  Json.obj
    [("id", Json.num (item.id : ℚ)), ("source", Json.str item.source),
     ("amount", encodeAmount item.amount), ("date", Json.str item.date),
     ("type", Json.str item.type)]

/-- The JSON form of an expense record, properties in creation order. -/
def encodeExpense (item : Expense) : Json :=
  Json.obj
    [("id", Json.num (item.id : ℚ)), ("name", Json.str item.name),
     ("category", Json.str item.category), ("amount", encodeAmount item.amount),
     ("date", Json.str item.date), ("type", Json.str item.type)]

/-- The call `JSON.stringify(appData)`, given by the value the written text
denotes. -/
def JSON_stringify (appData : Ledger) : Json :=
  Json.obj
    [("income", Json.arr (appData.income.map encodeIncome)),
     ("expenses", Json.arr (appData.expenses.map encodeExpense))]

/-- The function `saveData`: the whole data store is written to the slot. -/
def saveData (s : AppState) : AppState :=
  { s with storage := some (SlotText.json (JSON_stringify s.appData)) }

/-- An exception raised by the runtime. -/
inductive JSError where
  | syntaxError
  deriving DecidableEq, Repr

/-- The call `JSON.parse(text)`: a `SyntaxError` unless the text is JSON. -/
def JSON_parse : SlotText → Except JSError Json
  | SlotText.empty => Except.error JSError.syntaxError
  | SlotText.malformed => Except.error JSError.syntaxError
  | SlotText.json v => Except.ok v

/-- The property read `v[key]` on a parsed value: `none` when `v` is not an
object or has no such property. -/
def Json.get (key : String) : Json → Option Json
  | Json.obj members => members.lookup key
  | _ => none

/-- A parsed value read as an integer. -/
def decodeInt : Json → Option Int
  | Json.num q => if q.den = 1 then some q.num else none
  | _ => none

/-- A parsed value read as a string. -/
def decodeStr : Json → Option String
  | Json.str s => some s
  | _ => none

/-- A parsed value read as the value of an `amount` property. -/
def decodeAmount : Json → Option JSVal
  | Json.null => some JSVal.null
  | Json.num q => some (JSVal.number (JSNum.num q))
  | _ => none

/-- A parsed value read as an income record. -/
def decodeIncome (v : Json) : Option Income :=
  match (v.get "id").bind decodeInt, (v.get "source").bind decodeStr,
    (v.get "amount").bind decodeAmount, (v.get "date").bind decodeStr,
    (v.get "type").bind decodeStr with
  | some id, some source, some amount, some date, some type =>
    some { id := id, source := source, amount := amount, date := date, type := type }
  | _, _, _, _, _ => none

/-- A parsed value read as an expense record. -/
def decodeExpense (v : Json) : Option Expense :=
  match (v.get "id").bind decodeInt, (v.get "name").bind decodeStr,
    (v.get "category").bind decodeStr, (v.get "amount").bind decodeAmount,
    (v.get "date").bind decodeStr, (v.get "type").bind decodeStr with
  | some id, some name, some category, some amount, some date, some type =>
    some
      { id := id, name := name, category := category, amount := amount, date := date,
        type := type }
  | _, _, _, _, _, _ => none

/-- Every item of a list read with `f`; `none` as soon as one item is not
readable. -/
def decodeAll {α : Type} (f : Json → Option α) : List Json → Option (List α)
  | [] => some []
  | v :: vs =>
    match f v, decodeAll f vs with
    | some a, some as => some (a :: as)
    | _, _ => none

/-- A parsed value read as a list of records. -/
def decodeList {α : Type} (f : Json → Option α) : Json → Option (List α)
  | Json.arr items => decodeAll f items
  | _ => none

/-- A parsed value read as a data store: an object whose `income` and
`expenses` properties are lists of records. -/
def Json.asLedger (v : Json) : Option Ledger :=
  match (v.get "income").bind (decodeList decodeIncome),
    (v.get "expenses").bind (decodeList decodeExpense) with
  | some income, some expenses => some { income := income, expenses := expenses }
  | _, _ => none

/-- The value of `appData` once `loadData` assigned it: a data store, or a
parsed value of any other shape. -/
inductive AppData where
  | ledger (l : Ledger)
  | foreign (v : Json)

/-- The function `loadData`, returning the value of `appData` after the call or
the exception that leaves it.  An absent key and an empty text are falsy, so
`appData` keeps its value; any other text goes to `JSON.parse`, outside any
`try`, and the parsed value is assigned whatever its shape. -/
def loadData (s : AppState) : Except JSError AppData :=
  match s.storage with
  | none => Except.ok (AppData.ledger s.appData)
  | some SlotText.empty => Except.ok (AppData.ledger s.appData)
  | some text =>
    match JSON_parse text with
    | Except.error e => Except.error e
    | Except.ok v =>
      match v.asLedger with
      | some l => Except.ok (AppData.ledger l)
      | none => Except.ok (AppData.foreign v)

/-- The state at the end of the first statement of `init`, on a fresh page:
`appData` is still the empty store and the slot holds `storage`. -/
def freshState (month year : JSNum) (storage : Option SlotText) : AppState :=
  { appData := emptyLedger, selectedMonth := month, selectedYear := year, storage := storage }

/-! ## Adding and deleting records -/

/-- The function `handleIncomeSubmit`: `now` is `Date.now()`, `source` and
`date` are the values of the form fields and `amount` is what `parseFloat`
made of the amount field. -/
def handleIncomeSubmit (D : DateCtor) (now : Int) (source : String) (amount : JSNum)
    (date : String) (s : AppState) : AppState :=
  let income : Income :=
    { id := now, source := source, amount := JSVal.number amount, date := date,
      type := "income" }
  let pushed : AppState :=
    { s with appData := { s.appData with income := s.appData.income ++ [income] } }
  { saveData pushed with
    selectedMonth := getMonth D income.date
    selectedYear := getFullYear D income.date }

/-- The function `deleteIncome`. -/
def deleteIncome (id : Int) (s : AppState) : AppState :=
  saveData
    { s with
      appData :=
        { s.appData with income := s.appData.income.filter (fun item => decide (item.id ≠ id)) } }

/-- The function `handleExpenseSubmit`, with the same arguments as
`handleIncomeSubmit` and the two fields `name` and `category`. -/
def handleExpenseSubmit (D : DateCtor) (now : Int) (name category : String) (amount : JSNum)
    (date : String) (s : AppState) : AppState :=
  let expense : Expense :=
    { id := now, name := name, category := category, amount := JSVal.number amount,
      date := date, type := "expense" }
  let pushed : AppState :=
    { s with appData := { s.appData with expenses := s.appData.expenses ++ [expense] } }
  { saveData pushed with
    selectedMonth := getMonth D expense.date
    selectedYear := getFullYear D expense.date }

/-- The function `deleteExpense`. -/
def deleteExpense (id : Int) (s : AppState) : AppState :=
  saveData
    { s with
      appData :=
        { s.appData with
          expenses := s.appData.expenses.filter (fun item => decide (item.id ≠ id)) } }

/-! ## Calculations on the selected month -/

/-- The function `getTotalIncome`. -/
def getTotalIncome (D : DateCtor) (s : AppState) : JSNum :=
  (getFilteredIncome D s).foldl (fun sum item => plusAmount sum item.amount) (JSNum.num 0)

/-- The function `getTotalExpenses`. -/
def getTotalExpenses (D : DateCtor) (s : AppState) : JSNum :=
  (getFilteredExpenses D s).foldl (fun sum item => plusAmount sum item.amount) (JSNum.num 0)

/-- The function `getRemainingBalance`. -/
def getRemainingBalance (D : DateCtor) (s : AppState) : JSNum :=
  (getTotalIncome D s).sub (getTotalExpenses D s)

/-- The function `getTotalTransactions`. -/
def getTotalTransactions (D : DateCtor) (s : AppState) : Nat :=
  (getFilteredIncome D s).length + (getFilteredExpenses D s).length

/-- The function `getTotalExpenses` with the addition of the runtime as a
parameter `plus`; `getTotalExpenses` is the instance at the exact addition. -/
def getTotalExpensesWith (plus : JSNum → JSNum → JSNum) (D : DateCtor) (s : AppState) : JSNum :=
  (getFilteredExpenses D s).foldl (fun sum item => plus sum item.amount.toNumber) (JSNum.num 0)

/-- The names of the properties that the object `{}` inherits as functions. -/
def inheritedNames : List String :=
  ["constructor", "hasOwnProperty", "isPrototypeOf", "propertyIsEnumerable", "toLocaleString",
   "toString", "valueOf", "__defineGetter__", "__defineSetter__", "__lookupGetter__",
   "__lookupSetter__"]

/-- The value of an own property of the object `categories`: an amount, or
the text that `+=` builds on an inherited function, which is the text of that
function followed by the texts of the amounts added so far. -/
inductive PropVal where
  | amount (v : JSVal)
  | text (label : String) (added : List JSVal)
  deriving DecidableEq, Repr

/-- The conversion `ToNumber` of a property value: a text of the above form
is no numeral. -/
def PropVal.toNumber : PropVal → JSNum
  | PropVal.amount v => v.toNumber
  | PropVal.text _ _ => JSNum.nan

/-- The object `categories`: its own properties, listed in the order they were
created (the order in which the runtime enumerates them is not modelled). -/
abbrev Categories := List (String × PropVal)

/-- The assignment `categories[key] = value` for a key other than
`__proto__`: an existing property keeps its place, a new one is added last. -/
def setProp (key : String) (value : PropVal) : Categories → Categories
  | [] => [(key, value)]
  | (k, v) :: rest =>
    if k = key then (k, value) :: rest else (k, v) :: setProp key value rest

/-- One turn of the loop of `getExpensesByCategory`, with the addition of the
runtime as a parameter `plus`.  The test is the truthiness of
`categories[expense.category]`.  An own amount that is `NaN`, zero or `null`
takes the `else` branch, any other own value takes `+=`.  When the object has
no own property of that name, the read goes to what every object inherits: a
function for the names of `inheritedNames`, which is truthy and on which `+=`
builds a text; the prototype object for `__proto__`, which is truthy too and
whose setter ignores the text assigned to it; and `undefined` for any other
name, which takes the `else` branch. -/
def addToCategoryWith (plus : JSNum → JSNum → JSNum) (categories : Categories)
    (expense : Expense) : Categories :=
  match categories.lookup expense.category with
  | some (PropVal.amount current) =>
    if current.truthy then
      setProp expense.category
        (PropVal.amount (JSVal.number (plus current.toNumber expense.amount.toNumber)))
        categories
    else setProp expense.category (PropVal.amount expense.amount) categories
  | some (PropVal.text label added) =>
    setProp expense.category (PropVal.text label (added ++ [expense.amount])) categories
  | none =>
    if expense.category = "__proto__" then categories
    else if expense.category ∈ inheritedNames then
      setProp expense.category (PropVal.text expense.category [expense.amount]) categories
    else setProp expense.category (PropVal.amount expense.amount) categories

/-- The function `getExpensesByCategory` with the addition of the runtime as
a parameter. -/
def getExpensesByCategoryWith (plus : JSNum → JSNum → JSNum) (D : DateCtor) (s : AppState) :
    Categories :=
  (getFilteredExpenses D s).foldl (addToCategoryWith plus) []

/-- The function `getExpensesByCategory`, with the exact addition. -/
def getExpensesByCategory (D : DateCtor) (s : AppState) : Categories :=
  getExpensesByCategoryWith JSNum.add D s

/-- The wording of the specification: the sum of all values of the mapping,
taken with the addition `plus`. -/
def sumOfValuesWith (plus : JSNum → JSNum → JSNum) (categories : Categories) : JSNum :=
  categories.foldl (fun sum p => plus sum p.2.toNumber) (JSNum.num 0)

/-! ## Double arithmetic -/

/-- The power `2 ^ e` for an integer exponent. -/
def pow2 (e : Int) : ℚ :=
  if 0 ≤ e then ((2 ^ e.toNat : ℕ) : ℚ) else 1 / ((2 ^ (-e).toNat : ℕ) : ℚ)

/-- The integer part of the binary logarithm of `n`, by at most `fuel`
halvings. -/
def log2Fuel : Nat → Nat → Nat
  | 0, _ => 0
  | fuel + 1, n => if 2 ≤ n then log2Fuel fuel (n / 2) + 1 else 0

/-- The integer part of the binary logarithm of a positive natural number. -/
def natLog2 (n : Nat) : Nat := log2Fuel n n

/-- The integer part of the binary logarithm of a positive rational: the
difference of the logarithms of numerator and denominator, or one less. -/
def floorLog2 (q : ℚ) : Int :=
  let c : Int := (natLog2 q.num.natAbs : Int) - (natLog2 q.den : Int)
  if pow2 c ≤ q then c else c - 1

/-- The integer nearest to a non-negative rational, the even one on a tie. -/
def roundHalfEven (m : ℚ) : Int :=
  let f : Int := m.floor
  let r : ℚ := m - (f : ℚ)
  if r < 1 / 2 then f else if 1 / 2 < r then f + 1 else if f % 2 = 0 then f else f + 1

/-- The double nearest to a rational (IEEE 754 binary64, round to nearest,
ties to even): 53 significant bits, least exponent of the last bit -1074, and
an infinity from `2 ^ 1024` on.  This is what `parseFloat` makes of a decimal
numeral and what each arithmetic operation makes of its exact result. -/
def toDouble (q : ℚ) : JSNum :=
  if q = 0 then JSNum.num 0
  else
    let a : ℚ := if 0 < q then q else -q
    let e : Int := max (floorLog2 a - 52) (-1074)
    let r : ℚ := (roundHalfEven (a / pow2 e) : ℚ) * pow2 e
    if pow2 1024 ≤ r then (if 0 < q then JSNum.posInf else JSNum.negInf)
    else JSNum.num (if 0 < q then r else -r)

/-- The binary `+` of the runtime on doubles: the exact sum of two finite
numbers, rounded to the nearest double. -/
def doubleAdd (a b : JSNum) : JSNum :=
  match a, b with
  | JSNum.num x, JSNum.num y => toDouble (x + y)
  | _, _ => a.add b

/-! ## Recent transactions -/

/-- An item of the list `allTransactions`: a copy of a record. -/
inductive Transaction where
  | ofIncome (item : Income)
  | ofExpense (item : Expense)
  deriving DecidableEq, Repr

/-- The `date` property of a transaction. -/
def Transaction.date : Transaction → String
  | Transaction.ofIncome item => item.date
  | Transaction.ofExpense item => item.date

/-- The `type` property of a transaction. -/
def Transaction.type : Transaction → String
  | Transaction.ofIncome item => item.type
  | Transaction.ofExpense item => item.type

/-- The copy of an income record with its `type` set to `income`. -/
def tagIncome (item : Income) : Transaction :=
  Transaction.ofIncome { item with type := "income" }

/-- The copy of an expense record with its `type` set to `expense`. -/
def tagExpense (item : Expense) : Transaction :=
  Transaction.ofExpense { item with type := "expense" }

/-- A `Date` object converted to a number: its time value, `NaN` when invalid. -/
def timeValue (D : DateCtor) (text : String) : JSNum :=
  match D text with
  | some d => JSNum.num (d.time : ℚ)
  | none => JSNum.nan

/-- The comparator of the sort: `new Date(b.date) - new Date(a.date)`. -/
def compareDates (D : DateCtor) (a b : Transaction) : JSNum :=
  (timeValue D b.date).sub (timeValue D a.date)

/-- The order a comparator gives to `sort`: `a` may stay before `b` unless the
comparator is positive on them (a `NaN` result counts as zero). -/
def staysBefore (D : DateCtor) (a b : Transaction) : Prop :=
  (compareDates D a b).gt (JSNum.num 0) = false

instance (D : DateCtor) : DecidableRel (staysBefore D) :=
  fun a b => inferInstanceAs (Decidable ((compareDates D a b).gt (JSNum.num 0) = false))

/-- The list `allTransactions` of `renderRecentTransactions`: both filtered
lists, tagged, sorted with the comparator by a stable sort, cut to ten. -/
def recentTransactions (D : DateCtor) (s : AppState) : List Transaction :=
  (List.insertionSort (staysBefore D)
    ((getFilteredIncome D s).map tagIncome ++ (getFilteredExpenses D s).map tagExpense)).take 10

/-! ## The sum of amounts and the wording of the specification -/

instance : Add JSNum := ⟨JSNum.add⟩

instance : Zero JSNum := ⟨JSNum.num 0⟩

instance : AddCommMonoid JSNum where
  nsmul := nsmulRec
  add_assoc := by
    intro a b c
    show JSNum.add (JSNum.add a b) c = JSNum.add a (JSNum.add b c)
    cases a <;> cases b <;> cases c <;> simp [JSNum.add, add_assoc]
  zero_add := by
    intro a
    show JSNum.add (JSNum.num 0) a = a
    cases a <;> simp [JSNum.add]
  add_zero := by
    intro a
    show JSNum.add a (JSNum.num 0) = a
    cases a <;> simp [JSNum.add]
  add_comm := by
    intro a b
    show JSNum.add a b = JSNum.add b a
    cases a <;> cases b <;> simp [JSNum.add, add_comm]

/-- The wording of the specification: the sum of a list of amounts, taken
with the addition of the language. -/
def sumOfAmounts (amounts : List JSVal) : JSNum := (amounts.map JSVal.toNumber).sum

/-- The income records of the period: the stored income records whose date
the runtime reads as a date of the selected month and year. -/
def incomeOfPeriod (D : DateCtor) (s : AppState) : List Income :=
  s.appData.income.filter (fun r => decide (FallsIn D r.date s.selectedMonth s.selectedYear))

/-- The expense records of the period: the stored expense records whose date
the runtime reads as a date of the selected month and year. -/
def expensesOfPeriod (D : DateCtor) (s : AppState) : List Expense :=
  s.appData.expenses.filter (fun r => decide (FallsIn D r.date s.selectedMonth s.selectedYear))

/-- The sum of the amounts of the expenses of a list that carry the category
`label`. -/
def sumForCategory (l : List Expense) (label : String) : JSNum :=
  sumOfAmounts ((l.filter (fun e => decide (e.category = label))).map (fun e => e.amount))

/-- The wording of the specification: the sum of the amounts of the expenses
of the period that carry the category `label`. -/
def categorySum (D : DateCtor) (s : AppState) (label : String) : JSNum :=
  sumForCategory (expensesOfPeriod D s) label

/-! ## States of the scenarios -/

/-- A fresh page with January 2024 selected and nothing stored. -/
def startState : AppState := freshState (JSNum.num 0) (JSNum.num 2024) none

/-- The empty ledger after the income `Job`, 1000, dated 2024-03-05. -/
def jobState : AppState :=
  handleIncomeSubmit isoDate 1709640000000 "Job" (JSNum.num 1000) "2024-03-05" startState

/-- The state `jobState` after an expense of 700 dated 2024-03-01. -/
def marchState : AppState :=
  handleExpenseSubmit isoDate 1709640060000 "Rent" "Housing" (JSNum.num 700) "2024-03-01"
    jobState

/-- An income of 200 and an expense of 150 dated in the same month. -/
def balanceState : AppState :=
  handleExpenseSubmit isoDate 1709640060000 "Shoes" "Shopping" (JSNum.num 150) "2024-03-09"
    (handleIncomeSubmit isoDate 1709640000000 "Gift" (JSNum.num 200) "2024-03-05" startState)

/-- Two income submissions that read the same `Date.now()`. -/
def sameTickState : AppState :=
  handleIncomeSubmit isoDate 1709640000000 "Bonus" (JSNum.num 50) "2024-03-05" jobState

/-- An income submitted with its date field empty, on a fresh page. -/
def undatedState : AppState :=
  handleIncomeSubmit isoDate 1709640000000 "Job" (JSNum.num 1000) "" startState

/-- An income submitted with an amount field that `parseFloat` reads as `NaN`. -/
def nanIncomeState : AppState :=
  handleIncomeSubmit isoDate 1709640000000 "Job" JSNum.nan "2024-03-05" startState

/-- What the snapshot keeps of an amount: a finite number comes back as it
is, anything else comes back as `null`. -/
def reloadAmount : JSVal → JSVal
  | JSVal.number (JSNum.num q) => JSVal.number (JSNum.num q)
  | _ => JSVal.null

/-- The amount is `null` or a finite number: the values a JSON text can
write. -/
def JSVal.isFiniteOrNull : JSVal → Bool
  | JSVal.null => true
  | JSVal.number (JSNum.num _) => true
  | _ => false

/-- An income submitted with an amount field that `parseFloat` reads as
`Infinity` (the text `1e999`). -/
def infIncomeState : AppState :=
  handleIncomeSubmit isoDate 1709640000000 "Job" JSNum.posInf "2024-03-05" startState

/-- What the snapshot keeps of a ledger. -/
def reloadLedger (l : Ledger) : Ledger :=
  { income := l.income.map (fun r => { r with amount := reloadAmount r.amount })
    expenses := l.expenses.map (fun r => { r with amount := reloadAmount r.amount }) }

/-- The wording of the specification: the date of `a` is not earlier than the
date of `b`, both being valid dates. -/
def DateGE (D : DateCtor) (a b : Transaction) : Prop :=
  ∃ da db, D a.date = some da ∧ D b.date = some db ∧ db.time ≤ da.time

/-- The wording of the specification: the records of the period, each tagged
with its kind. -/
def taggedOfPeriod (D : DateCtor) (s : AppState) : List Transaction :=
  (incomeOfPeriod D s).map tagIncome ++ (expensesOfPeriod D s).map tagExpense

/-- Two expenses of 50 and 30 in the category `Food & Groceries`, same month. -/
def groceriesState : AppState :=
  handleExpenseSubmit isoDate 1709640060000 "Bread" "Food & Groceries" (JSNum.num 30)
    "2024-03-09"
    (handleExpenseSubmit isoDate 1709640000000 "Market" "Food & Groceries" (JSNum.num 50)
      "2024-03-05" startState)

/-- An expense whose amount field was read as `NaN`, then an expense of 30 in
the same category and month. -/
def nanExpenseState : AppState :=
  handleExpenseSubmit isoDate 1709640060000 "Bread" "Food & Groceries" (JSNum.num 30)
    "2024-03-09"
    (handleExpenseSubmit isoDate 1709640000000 "Market" "Food & Groceries" JSNum.nan
      "2024-03-05" startState)

/-- The amount is a number other than `NaN`. -/
def JSVal.isNumeric : JSVal → Bool
  | JSVal.number (JSNum.num _) => true
  | _ => false

/-- On a machine whose zone is behind UTC: an income and an expense, both
dated 1 March 2024, added to an empty ledger. -/
def firstOfMarchState : AppState :=
  handleExpenseSubmit pacificDate 1709640060000 "Rent" "Housing" (JSNum.num 700) "2024-03-01"
    (handleIncomeSubmit pacificDate 1709640000000 "Job" (JSNum.num 1000) "2024-03-01"
      startState)

/-! ## Month selector -/

/-- The click handler that `setupMonthSelector` attaches to the button
`prevMonth`: `selectedMonth--`, and below zero the month becomes 11 and the
year is decremented.  The two render calls that follow are presentation. -/
def prevMonthClick (s : AppState) : AppState :=
  let month := s.selectedMonth.sub (JSNum.num 1)
  if month.lt (JSNum.num 0) then
    { s with selectedMonth := JSNum.num 11, selectedYear := s.selectedYear.sub (JSNum.num 1) }
  else { s with selectedMonth := month }

/-- The click handler that `setupMonthSelector` attaches to the button
`nextMonth`: `selectedMonth++`, and above 11 the month becomes 0 and the year
is incremented.  The two render calls that follow are presentation. -/
def nextMonthClick (s : AppState) : AppState :=
  let month := s.selectedMonth.add (JSNum.num 1)
  if month.gt (JSNum.num 11) then
    { s with selectedMonth := JSNum.num 0, selectedYear := s.selectedYear.add (JSNum.num 1) }
  else { s with selectedMonth := month }

/-- December 2024 selected on the ledger of `marchState`. -/
def decemberState : AppState :=
  { marchState with selectedMonth := JSNum.num 11, selectedYear := JSNum.num 2024 }

/-- January 2024 selected on the ledger of `marchState`. -/
def januaryState : AppState :=
  { marchState with selectedMonth := JSNum.num 0, selectedYear := JSNum.num 2024 }

/-- Three expenses of March 2024 in two categories, the second category
between the two expenses of the first. -/
def mixedState : AppState :=
  handleExpenseSubmit isoDate 1709640120000 "Bread" "Food & Groceries" (JSNum.num (61 / 20))
    "2024-03-09"
    (handleExpenseSubmit isoDate 1709640060000 "Rent" "Housing" (JSNum.num 700) "2024-03-01"
      (handleExpenseSubmit isoDate 1709640000000 "Market" "Food & Groceries"
        (JSNum.num (99 / 2)) "2024-03-05" startState))

/-- An expense of 30, then an expense whose amount field was read as `NaN`,
in the same category and month: the order of `nanExpenseState` reversed. -/
def nanLastExpenseState : AppState :=
  handleExpenseSubmit isoDate 1709640060000 "Bread" "Food & Groceries" JSNum.nan "2024-03-09"
    (handleExpenseSubmit isoDate 1709640000000 "Market" "Food & Groceries" (JSNum.num 30)
      "2024-03-05" startState)

/-- Three expenses of March 2024 whose amount fields read `0.1`, `0.1` and
`1.1`, the first and the last in one category; each amount is the double that
`parseFloat` gives for the numeral. -/
def roundingState : AppState :=
  handleExpenseSubmit isoDate 1709640120000 "Bread" "Food & Groceries" (toDouble (11 / 10))
    "2024-03-09"
    (handleExpenseSubmit isoDate 1709640060000 "Bus" "Transportation" (toDouble (1 / 10))
      "2024-03-07"
      (handleExpenseSubmit isoDate 1709640000000 "Market" "Food & Groceries"
        (toDouble (1 / 10)) "2024-03-05" startState))

/-- Two expenses of March 2024 whose category labels name properties that
every object inherits. -/
def inheritedLabelState : AppState :=
  handleExpenseSubmit isoDate 1709640060000 "Bus" "__proto__" (JSNum.num 3) "2024-03-07"
    (handleExpenseSubmit isoDate 1709640000000 "Market" "constructor" (JSNum.num 50)
      "2024-03-05" startState)

/-! ## Theorems -/

theorem JSNum.add_def (a b : JSNum) : a + b = a.add b := rfl

theorem JSNum.zero_def : (0 : JSNum) = JSNum.num 0 := rfl

theorem strictEq_num_iff (q : ℚ) (b : JSNum) :
    (JSNum.num q).strictEq b = true ↔ b = JSNum.num q := by
  cases b <;> simp [JSNum.strictEq, eq_comm]

theorem matchesSelected_iff (D : DateCtor) (s : AppState) (date : String) :
    matchesSelected D s date = true ↔ FallsIn D date s.selectedMonth s.selectedYear := by
  unfold matchesSelected FallsIn getMonth getFullYear
  cases h : D date with
  | none => simp [JSNum.strictEq]
  | some d =>
    simp only [Bool.and_eq_true, strictEq_num_iff]
    constructor
    · rintro ⟨h1, h2⟩
      exact ⟨d, rfl, h1, h2⟩
    · rintro ⟨d1, h1, h2, h3⟩
      cases h1
      exact ⟨h2, h3⟩

theorem matchesSelected_eq_decide (D : DateCtor) (s : AppState) (date : String) :
    matchesSelected D s date = decide (FallsIn D date s.selectedMonth s.selectedYear) := by
  rw [Bool.eq_iff_iff, matchesSelected_iff]
  simp

theorem getFilteredIncome_eq (D : DateCtor) (s : AppState) :
    getFilteredIncome D s = incomeOfPeriod D s := by
  unfold getFilteredIncome incomeOfPeriod
  congr 1
  funext r
  exact matchesSelected_eq_decide D s r.date

theorem getFilteredExpenses_eq (D : DateCtor) (s : AppState) :
    getFilteredExpenses D s = expensesOfPeriod D s := by
  unfold getFilteredExpenses expensesOfPeriod
  congr 1
  funext r
  exact matchesSelected_eq_decide D s r.date

/-- C1 fails on the code.  On a machine whose zone is behind UTC, an income and
an expense dated 1 March 2024 are stored with that date, which falls in March
2024 (month 2); with March 2024 selected both filters return nothing, with
February 2024 selected both return the record, and the submit handler itself
switched the view to February 2024. -/
theorem filter_files_first_of_month_under_previous :
    WrittenIn "2024-03-01" (JSNum.num 2) (JSNum.num 2024) ∧
    firstOfMarchState.appData.income =
      [{ id := 1709640000000, source := "Job", amount := JSVal.number (JSNum.num 1000),
         date := "2024-03-01", type := "income" }] ∧
    firstOfMarchState.appData.expenses =
      [{ id := 1709640060000, name := "Rent", category := "Housing",
         amount := JSVal.number (JSNum.num 700), date := "2024-03-01", type := "expense" }] ∧
    getFilteredIncome pacificDate
        { firstOfMarchState with selectedMonth := JSNum.num 2, selectedYear := JSNum.num 2024 } =
      [] ∧
    getFilteredExpenses pacificDate
        { firstOfMarchState with selectedMonth := JSNum.num 2, selectedYear := JSNum.num 2024 } =
      [] ∧
    getFilteredIncome pacificDate
        { firstOfMarchState with selectedMonth := JSNum.num 1, selectedYear := JSNum.num 2024 } =
      firstOfMarchState.appData.income ∧
    getFilteredExpenses pacificDate
        { firstOfMarchState with selectedMonth := JSNum.num 1, selectedYear := JSNum.num 2024 } =
      firstOfMarchState.appData.expenses ∧
    firstOfMarchState.selectedMonth = JSNum.num 1 ∧
    firstOfMarchState.selectedYear = JSNum.num 2024 := by
  refine ⟨⟨2024, 3, 1, by decide, by norm_num, by norm_num⟩, ?_⟩
  decide!

theorem foldl_plusAmount (l : List JSVal) (x : JSNum) :
    l.foldl plusAmount x = x + sumOfAmounts l := by
  induction l generalizing x with
  | nil => simp [sumOfAmounts]
  | cons a l ih =>
    rw [List.foldl_cons, ih]
    simp only [sumOfAmounts, List.map_cons, List.sum_cons, plusAmount, ← JSNum.add_def, add_assoc]

theorem getTotalIncome_eq (D : DateCtor) (s : AppState) :
    getTotalIncome D s = sumOfAmounts ((incomeOfPeriod D s).map (fun r => r.amount)) := by
  unfold getTotalIncome
  rw [getFilteredIncome_eq, ← List.foldl_map, foldl_plusAmount]
  exact zero_add _

theorem getTotalExpenses_eq (D : DateCtor) (s : AppState) :
    getTotalExpenses D s = sumOfAmounts ((expensesOfPeriod D s).map (fun r => r.amount)) := by
  unfold getTotalExpenses
  rw [getFilteredExpenses_eq, ← List.foldl_map, foldl_plusAmount]
  exact zero_add _

/-- C2. The two totals are the sums of the amounts of exactly the income
records, respectively expense records, whose date falls in the selected period;
both are 0 when no record matches; and in the scenario of the specification
(income `Job`, 1000, dated 2024-03-05 on an empty ledger) the total income is
1000 for month 2 of 2024 and 0 for month 3 of 2024. -/
theorem getTotal_eq_sum :
    (∀ (D : DateCtor) (s : AppState),
      getTotalIncome D s = sumOfAmounts ((incomeOfPeriod D s).map (fun r => r.amount)) ∧
      getTotalExpenses D s = sumOfAmounts ((expensesOfPeriod D s).map (fun r => r.amount)) ∧
      ((∀ r ∈ s.appData.income, ¬ FallsIn D r.date s.selectedMonth s.selectedYear) →
        getTotalIncome D s = JSNum.num 0) ∧
      ((∀ r ∈ s.appData.expenses, ¬ FallsIn D r.date s.selectedMonth s.selectedYear) →
        getTotalExpenses D s = JSNum.num 0)) ∧
    getTotalIncome isoDate
        { jobState with selectedMonth := JSNum.num 2, selectedYear := JSNum.num 2024 } =
      JSNum.num 1000 ∧
    getTotalIncome isoDate
        { jobState with selectedMonth := JSNum.num 3, selectedYear := JSNum.num 2024 } =
      JSNum.num 0 := by
  refine ⟨fun D s => ⟨getTotalIncome_eq D s, getTotalExpenses_eq D s, ?_, ?_⟩, by decide!,
    by decide!⟩
  · intro h
    have : incomeOfPeriod D s = [] := by
      unfold incomeOfPeriod
      rw [List.filter_eq_nil_iff]
      intro r hr
      simpa using h r hr
    rw [getTotalIncome_eq, this]
    rfl
  · intro h
    have : expensesOfPeriod D s = [] := by
      unfold expensesOfPeriod
      rw [List.filter_eq_nil_iff]
      intro r hr
      simpa using h r hr
    rw [getTotalExpenses_eq, this]
    rfl

/-- C2, at a concrete input: with April 2024 selected no record of the ledger
matches, and both totals are 0. -/
theorem getTotal_eq_sum_witness :
    getTotalIncome isoDate { marchState with selectedMonth := JSNum.num 3 } = JSNum.num 0 ∧
      getTotalExpenses isoDate { marchState with selectedMonth := JSNum.num 3 } =
        JSNum.num 0 :=
  ⟨(getTotal_eq_sum.1 isoDate { marchState with selectedMonth := JSNum.num 3 }).2.2.1
      (by decide!),
    (getTotal_eq_sum.1 isoDate { marchState with selectedMonth := JSNum.num 3 }).2.2.2
      (by decide!)⟩

theorem filter_ne_of_unique {α : Type} (p : α → Bool) :
    ∀ l : List α, (l.filter p).length = 1 →
      ∃ before r after, l = before ++ r :: after ∧ p r = true ∧
        l.filter (fun x => !p x) = before ++ after := by
  intro l
  induction l with
  | nil => intro h; simp at h
  | cons x xs ih =>
    intro h
    by_cases hx : p x = true
    · have hnil : xs.filter p = [] := by
        rw [List.filter_cons_of_pos hx] at h
        simpa using h
      refine ⟨[], x, xs, rfl, hx, ?_⟩
      rw [List.filter_eq_nil_iff] at hnil
      have hall : xs.filter (fun x => !p x) = xs := by
        rw [List.filter_eq_self]
        intro a ha
        simpa using hnil a ha
      simp [hx, hall]
    · rw [List.filter_cons_of_neg hx] at h
      obtain ⟨before, r, after, h1, h2, h3⟩ := ih h
      refine ⟨x :: before, r, after, by rw [h1]; rfl, h2, ?_⟩
      have hx2 : (!p x) = true := by simpa using hx
      have h4 : List.filter (fun x => !p x) (x :: xs) = x :: List.filter (fun x => !p x) xs :=
        List.filter_cons_of_pos hx2
      rw [h4, h3]
      rfl

theorem deleteIncome_income (id : Int) (s : AppState) :
    (deleteIncome id s).appData.income =
      s.appData.income.filter (fun item => !decide (item.id = id)) := by
  unfold deleteIncome saveData
  simp

theorem deleteExpense_expenses (id : Int) (s : AppState) :
    (deleteExpense id s).appData.expenses =
      s.appData.expenses.filter (fun item => !decide (item.id = id)) := by
  unfold deleteExpense saveData
  simp

/-- C4, as the code does it: when exactly one income record carries the id,
`deleteIncome` removes that record and nothing else (the list is split around
it, the two sides are kept in order, the length drops by 1) and the expense
list is unchanged; likewise `deleteExpense` with the two lists swapped. -/
theorem delete_removes_unique (id : Int) (s : AppState) :
    ((s.appData.income.filter (fun r => decide (r.id = id))).length = 1 →
      ∃ before r after, s.appData.income = before ++ r :: after ∧ r.id = id ∧
        (deleteIncome id s).appData.income = before ++ after ∧
        (deleteIncome id s).appData.income.length + 1 = s.appData.income.length ∧
        (deleteIncome id s).appData.expenses = s.appData.expenses) ∧
    ((s.appData.expenses.filter (fun r => decide (r.id = id))).length = 1 →
      ∃ before r after, s.appData.expenses = before ++ r :: after ∧ r.id = id ∧
        (deleteExpense id s).appData.expenses = before ++ after ∧
        (deleteExpense id s).appData.expenses.length + 1 = s.appData.expenses.length ∧
        (deleteExpense id s).appData.income = s.appData.income) := by
  constructor
  · intro h
    obtain ⟨before, r, after, h1, h2, h3⟩ := filter_ne_of_unique _ _ h
    refine ⟨before, r, after, h1, by simpa using h2, ?_, ?_, rfl⟩
    · rw [deleteIncome_income]
      exact h3
    · rw [deleteIncome_income]
      rw [h3, h1]
      simp
      omega
  · intro h
    obtain ⟨before, r, after, h1, h2, h3⟩ := filter_ne_of_unique _ _ h
    refine ⟨before, r, after, h1, by simpa using h2, ?_, ?_, rfl⟩
    · rw [deleteExpense_expenses]
      exact h3
    · rw [deleteExpense_expenses]
      rw [h3, h1]
      simp
      omega

/-- C4, at a concrete input: deleting the only income and the only expense of a
ledger that holds one of each. -/
theorem delete_removes_unique_witness :
    (∃ before r after, marchState.appData.income = before ++ r :: after ∧
        r.id = 1709640000000 ∧
        (deleteIncome 1709640000000 marchState).appData.income = before ++ after ∧
        (deleteIncome 1709640000000 marchState).appData.income.length + 1 =
          marchState.appData.income.length ∧
        (deleteIncome 1709640000000 marchState).appData.expenses =
          marchState.appData.expenses) ∧
    (∃ before r after, marchState.appData.expenses = before ++ r :: after ∧
        r.id = 1709640060000 ∧
        (deleteExpense 1709640060000 marchState).appData.expenses = before ++ after ∧
        (deleteExpense 1709640060000 marchState).appData.expenses.length + 1 =
          marchState.appData.expenses.length ∧
        (deleteExpense 1709640060000 marchState).appData.income =
          marchState.appData.income) :=
  ⟨(delete_removes_unique 1709640000000 marchState).1 (by decide),
    (delete_removes_unique 1709640060000 marchState).2 (by decide)⟩

/-- C4 as stated fails: after two submissions that read the same `Date.now()`,
two income records carry the id, and `deleteIncome` removes both, so the length
drops by 2 and not by 1. -/
theorem delete_shared_id_removes_both :
    (∃ r ∈ sameTickState.appData.income, r.id = 1709640000000) ∧
      sameTickState.appData.income.length = 2 ∧
      (deleteIncome 1709640000000 sameTickState).appData.income = [] ∧
      (deleteIncome 1709640000000 sameTickState).appData.income.length + 1 ≠
        sameTickState.appData.income.length := by
  decide

/-- C5. Deleting an id that no income record carries leaves the whole ledger
as it is, and so does deleting an expense id that no expense record carries;
both functions are total, so the call completes. -/
theorem delete_absent_id (id : Int) (s : AppState) :
    ((∀ r ∈ s.appData.income, r.id ≠ id) → (deleteIncome id s).appData = s.appData) ∧
    ((∀ r ∈ s.appData.expenses, r.id ≠ id) → (deleteExpense id s).appData = s.appData) := by
  constructor
  · intro h
    have h1 : s.appData.income.filter (fun item => decide (item.id ≠ id)) = s.appData.income := by
      rw [List.filter_eq_self]
      intro a ha
      simpa using h a ha
    unfold deleteIncome saveData
    simp only [h1]
  · intro h
    have h1 :
        s.appData.expenses.filter (fun item => decide (item.id ≠ id)) = s.appData.expenses := by
      rw [List.filter_eq_self]
      intro a ha
      simpa using h a ha
    unfold deleteExpense saveData
    simp only [h1]

/-- C5, at a concrete input: the id 5 is carried by no record. -/
theorem delete_absent_id_witness :
    (deleteIncome 5 marchState).appData = marchState.appData ∧
      (deleteExpense 5 marchState).appData = marchState.appData :=
  ⟨(delete_absent_id 5 marchState).1 (by decide), (delete_absent_id 5 marchState).2 (by decide)⟩

/-- C10. The remaining balance is the total income minus the total expenses,
and it is negative exactly when the total expenses exceed the total income; in
the scenario of the specification (income 200, expense 150, same month) the
balance is 50 and the transaction count is 2. -/
theorem remainingBalance_spec :
    (∀ (D : DateCtor) (s : AppState),
      getRemainingBalance D s = (getTotalIncome D s).sub (getTotalExpenses D s) ∧
      ((getRemainingBalance D s).lt (JSNum.num 0) = true ↔
        (getTotalExpenses D s).gt (getTotalIncome D s) = true) ∧
      getTotalTransactions D s =
        (incomeOfPeriod D s).length + (expensesOfPeriod D s).length) ∧
    getRemainingBalance isoDate balanceState = JSNum.num 50 ∧
    getTotalTransactions isoDate balanceState = 2 := by
  refine ⟨fun D s => ⟨rfl, ?_, ?_⟩, by decide!, by decide!⟩
  · unfold getRemainingBalance
    cases getTotalIncome D s <;> cases getTotalExpenses D s <;>
      simp [JSNum.sub, JSNum.lt, JSNum.gt]
  · unfold getTotalTransactions
    rw [getFilteredIncome_eq, getFilteredExpenses_eq]

theorem matchesSelected_own (D : DateCtor) (s : AppState) (date : String)
    (hm : s.selectedMonth = getMonth D date) (hy : s.selectedYear = getFullYear D date)
    (h : D date ≠ none) : matchesSelected D s date = true := by
  unfold matchesSelected
  rw [hm, hy]
  unfold getMonth getFullYear
  cases hd : D date with
  | none => exact absurd hd h
  | some d => simp [JSNum.strictEq]

/-- C6, as the code does it: when the submitted date value is one the runtime
reads as a valid date, the income list after `handleIncomeSubmit` is the old
list followed by the new record, the expenses are untouched, and the filter on
the period the handler selected returns the old records of that period followed
by the new record, that is exactly one more occurrence of it than among the old
records; the same for `handleExpenseSubmit` and the expense list. -/
theorem submit_then_filter (D : DateCtor) (now : Int) (label category : String)
    (amount : JSNum) (date : String) (s : AppState) (h : D date ≠ none) :
    ((handleIncomeSubmit D now label amount date s).appData.income =
        s.appData.income ++
          [{ id := now, source := label, amount := JSVal.number amount, date := date,
             type := "income" }] ∧
      (handleIncomeSubmit D now label amount date s).appData.expenses = s.appData.expenses ∧
      getFilteredIncome D (handleIncomeSubmit D now label amount date s) =
        s.appData.income.filter
            (fun r => matchesSelected D (handleIncomeSubmit D now label amount date s) r.date) ++
          [{ id := now, source := label, amount := JSVal.number amount, date := date,
             type := "income" }] ∧
      (getFilteredIncome D (handleIncomeSubmit D now label amount date s)).count
          { id := now, source := label, amount := JSVal.number amount, date := date,
            type := "income" } =
        (s.appData.income.filter
            (fun r =>
              matchesSelected D (handleIncomeSubmit D now label amount date s) r.date)).count
          { id := now, source := label, amount := JSVal.number amount, date := date,
            type := "income" } + 1) ∧
    ((handleExpenseSubmit D now label category amount date s).appData.expenses =
        s.appData.expenses ++
          [{ id := now, name := label, category := category, amount := JSVal.number amount,
             date := date, type := "expense" }] ∧
      (handleExpenseSubmit D now label category amount date s).appData.income =
        s.appData.income ∧
      getFilteredExpenses D (handleExpenseSubmit D now label category amount date s) =
        s.appData.expenses.filter
            (fun r =>
              matchesSelected D (handleExpenseSubmit D now label category amount date s)
                r.date) ++
          [{ id := now, name := label, category := category, amount := JSVal.number amount,
             date := date, type := "expense" }] ∧
      (getFilteredExpenses D (handleExpenseSubmit D now label category amount date s)).count
          { id := now, name := label, category := category, amount := JSVal.number amount,
            date := date, type := "expense" } =
        (s.appData.expenses.filter
            (fun r =>
              matchesSelected D (handleExpenseSubmit D now label category amount date s)
                r.date)).count
          { id := now, name := label, category := category, amount := JSVal.number amount,
            date := date, type := "expense" } + 1) := by
  have hI : matchesSelected D (handleIncomeSubmit D now label amount date s) date = true :=
    matchesSelected_own D _ date rfl rfl h
  have hE :
      matchesSelected D (handleExpenseSubmit D now label category amount date s) date = true :=
    matchesSelected_own D _ date rfl rfl h
  have hIf :
      getFilteredIncome D (handleIncomeSubmit D now label amount date s) =
        s.appData.income.filter
            (fun r => matchesSelected D (handleIncomeSubmit D now label amount date s) r.date) ++
          [{ id := now, source := label, amount := JSVal.number amount, date := date,
             type := "income" }] := by
    unfold getFilteredIncome
    have : (handleIncomeSubmit D now label amount date s).appData.income =
        s.appData.income ++
          [{ id := now, source := label, amount := JSVal.number amount, date := date,
             type := "income" }] := rfl
    rw [this, List.filter_append]
    congr 1
    exact List.filter_cons_of_pos hI
  have hEf :
      getFilteredExpenses D (handleExpenseSubmit D now label category amount date s) =
        s.appData.expenses.filter
            (fun r =>
              matchesSelected D (handleExpenseSubmit D now label category amount date s)
                r.date) ++
          [{ id := now, name := label, category := category, amount := JSVal.number amount,
             date := date, type := "expense" }] := by
    unfold getFilteredExpenses
    have : (handleExpenseSubmit D now label category amount date s).appData.expenses =
        s.appData.expenses ++
          [{ id := now, name := label, category := category, amount := JSVal.number amount,
             date := date, type := "expense" }] := rfl
    rw [this, List.filter_append]
    congr 1
    exact List.filter_cons_of_pos hE
  refine ⟨⟨rfl, rfl, hIf, ?_⟩, ⟨rfl, rfl, hEf, ?_⟩⟩
  · rw [hIf, List.count_append]
    simp
  · rw [hEf, List.count_append]
    simp

/-- C6, at a concrete input: an income and an expense dated 2024-03-05 added to
a ledger that already holds records of March 2024. -/
theorem submit_then_filter_witness :
    (getFilteredIncome isoDate
          (handleIncomeSubmit isoDate 7 "Gift" (JSNum.num 20) "2024-03-05" marchState)).count
        { id := 7, source := "Gift", amount := JSVal.number (JSNum.num 20),
          date := "2024-03-05", type := "income" } = 1 ∧
      (getFilteredExpenses isoDate
          (handleExpenseSubmit isoDate 7 "Bus" "Transportation" (JSNum.num 3) "2024-03-05"
            marchState)).count
        { id := 7, name := "Bus", category := "Transportation",
          amount := JSVal.number (JSNum.num 3), date := "2024-03-05", type := "expense" } =
        1 := by
  have h :=
    submit_then_filter isoDate 7 "Gift" "Transportation" (JSNum.num 20) "2024-03-05" marchState
      (by decide)
  have h2 :=
    submit_then_filter isoDate 7 "Bus" "Transportation" (JSNum.num 3) "2024-03-05" marchState
      (by decide)
  refine ⟨?_, ?_⟩
  · rw [h.1.2.2.2]
    decide!
  · rw [h2.2.2.2.2]
    decide!

/-- C6 as stated fails: an income submitted with an empty date field is
stored, but the handler selects the period (`NaN`, `NaN`) and the filter on that
period returns nothing, so the new record is not in the filtered list. -/
theorem submit_empty_date_not_listed :
    undatedState.appData.income =
        [{ id := 1709640000000, source := "Job", amount := JSVal.number (JSNum.num 1000),
           date := "", type := "income" }] ∧
      undatedState.selectedMonth = JSNum.nan ∧ undatedState.selectedYear = JSNum.nan ∧
      getFilteredIncome isoDate undatedState = [] ∧
      (getFilteredIncome isoDate undatedState).count
          { id := 1709640000000, source := "Job", amount := JSVal.number (JSNum.num 1000),
            date := "", type := "income" } = 0 := by
  decide!

theorem decodeAmount_encodeAmount (v : JSVal) :
    decodeAmount (encodeAmount v) = some (reloadAmount v) := by
  cases v with
  | null => rfl
  | number n => cases n <;> rfl

theorem decodeInt_intCast (n : Int) : decodeInt (Json.num (n : ℚ)) = some n := by
  simp [decodeInt]

theorem decodeIncome_encodeIncome (r : Income) :
    decodeIncome (encodeIncome r) = some { r with amount := reloadAmount r.amount } := by
  simp [decodeIncome, encodeIncome, Json.get, List.lookup, decodeInt_intCast, decodeStr,
    decodeAmount_encodeAmount]

theorem decodeExpense_encodeExpense (r : Expense) :
    decodeExpense (encodeExpense r) = some { r with amount := reloadAmount r.amount } := by
  simp [decodeExpense, encodeExpense, Json.get, List.lookup, decodeInt_intCast, decodeStr,
    decodeAmount_encodeAmount]

theorem decodeAll_map {α : Type} (f : Json → Option α) (enc : α → Json) (g : α → α)
    (h : ∀ a, f (enc a) = some (g a)) (l : List α) :
    decodeAll f (l.map enc) = some (l.map g) := by
  induction l with
  | nil => rfl
  | cons a l ih => simp [decodeAll, h, ih]

theorem asLedger_stringify (l : Ledger) :
    (JSON_stringify l).asLedger = some (reloadLedger l) := by
  simp [Json.asLedger, JSON_stringify, Json.get, List.lookup, decodeList,
    decodeAll_map decodeIncome encodeIncome _ decodeIncome_encodeIncome,
    decodeAll_map decodeExpense encodeExpense _ decodeExpense_encodeExpense, reloadLedger]

theorem loadData_of_saved (s t : AppState) (ht : t.storage = (saveData s).storage) :
    loadData t = Except.ok (AppData.ledger (reloadLedger s.appData)) := by
  have h : t.storage = some (SlotText.json (JSON_stringify s.appData)) := ht
  simp [loadData, h, JSON_parse, asLedger_stringify]

theorem reloadAmount_of_finite {v : JSVal} (h : v.isFiniteOrNull = true) :
    reloadAmount v = v := by
  cases v with
  | null => rfl
  | number n => cases n <;> first | rfl | exact absurd h (by decide)

/-- C9, as the code does it: when every stored amount is a finite number (or
`null`), the snapshot that `saveData` writes is read back by `loadData`, from
any state that holds that snapshot (a later page load starts from the empty
ledger), as the very same ledger: every record with the same id, label,
category, amount, date and kind, in the same order. -/
theorem save_load_roundtrip (s t : AppState) (ht : t.storage = (saveData s).storage)
    (hi : ∀ r ∈ s.appData.income, r.amount.isFiniteOrNull = true)
    (he : ∀ r ∈ s.appData.expenses, r.amount.isFiniteOrNull = true) :
    loadData t = Except.ok (AppData.ledger s.appData) := by
  rw [loadData_of_saved s t ht]
  have h1 : s.appData.income.map (fun r => { r with amount := reloadAmount r.amount }) =
      s.appData.income := by
    conv_rhs => rw [← List.map_id s.appData.income]
    apply List.map_congr_left
    intro r hr
    simp [reloadAmount_of_finite (hi r hr)]
  have h2 : s.appData.expenses.map (fun r => { r with amount := reloadAmount r.amount }) =
      s.appData.expenses := by
    conv_rhs => rw [← List.map_id s.appData.expenses]
    apply List.map_congr_left
    intro r hr
    simp [reloadAmount_of_finite (he r hr)]
  unfold reloadLedger
  rw [h1, h2]

/-- C9, at a concrete input: a ledger with one income and one expense, both
with finite amounts, saved and then loaded on a fresh page. -/
theorem save_load_roundtrip_witness :
    loadData (freshState (JSNum.num 0) (JSNum.num 2024) (saveData marchState).storage) =
      Except.ok (AppData.ledger marchState.appData) :=
  save_load_roundtrip marchState
    (freshState (JSNum.num 0) (JSNum.num 2024) (saveData marchState).storage) rfl (by decide)
    (by decide)

/-- C9 as stated fails: an income whose amount was parsed from a non-numeric
input is stored with the amount `NaN`, the snapshot writes it as `null`, and
after `saveData` a fresh page loads the record with the amount `null`, which is
not the amount it had; the same happens to an amount that `parseFloat` read as
`Infinity`. -/
theorem save_load_loses_nan :
    nanIncomeState.appData.income =
        [{ id := 1709640000000, source := "Job", amount := JSVal.number JSNum.nan,
           date := "2024-03-05", type := "income" }] ∧
      loadData (freshState (JSNum.num 0) (JSNum.num 2024) (saveData nanIncomeState).storage) =
        Except.ok
          (AppData.ledger
            { income :=
                [{ id := 1709640000000, source := "Job", amount := JSVal.null,
                   date := "2024-03-05", type := "income" }]
              expenses := [] }) ∧
      loadData (freshState (JSNum.num 0) (JSNum.num 2024) (saveData nanIncomeState).storage) ≠
        Except.ok (AppData.ledger nanIncomeState.appData) ∧
      loadData (freshState (JSNum.num 0) (JSNum.num 2024) (saveData infIncomeState).storage) =
        Except.ok
          (AppData.ledger
            { income :=
                [{ id := 1709640000000, source := "Job", amount := JSVal.null,
                   date := "2024-03-05", type := "income" }]
              expenses := [] }) := by
  refine ⟨rfl, ?_, ?_, ?_⟩
  · rw [loadData_of_saved nanIncomeState
      (freshState (JSNum.num 0) (JSNum.num 2024) (saveData nanIncomeState).storage) rfl]
    rfl
  · rw [loadData_of_saved nanIncomeState
      (freshState (JSNum.num 0) (JSNum.num 2024) (saveData nanIncomeState).storage) rfl]
    intro h
    injection h with h
    injection h with h
    revert h
    decide
  · rw [loadData_of_saved infIncomeState
      (freshState (JSNum.num 0) (JSNum.num 2024) (saveData infIncomeState).storage) rfl]
    rfl

/-- C8, as the code does it: `loadData` keeps the current ledger (the empty one
at start) when the key is absent or its text is empty; it raises the
`SyntaxError` of `JSON.parse` when the text is not JSON; and when the text is
JSON it assigns the parsed value, a ledger if the value has the shape of one
and the foreign value as it is otherwise. -/
theorem loadData_cases (month year : JSNum) :
    loadData (freshState month year none) = Except.ok (AppData.ledger emptyLedger) ∧
    loadData (freshState month year (some SlotText.empty)) =
      Except.ok (AppData.ledger emptyLedger) ∧
    loadData (freshState month year (some SlotText.malformed)) =
      Except.error JSError.syntaxError ∧
    (∀ v l, v.asLedger = some l →
      loadData (freshState month year (some (SlotText.json v))) =
        Except.ok (AppData.ledger l)) ∧
    (∀ v, v.asLedger = none →
      loadData (freshState month year (some (SlotText.json v))) =
        Except.ok (AppData.foreign v)) := by
  refine ⟨rfl, rfl, rfl, ?_, ?_⟩
  · intro v l h
    simp [loadData, freshState, JSON_parse, h]
  · intro v h
    simp [loadData, freshState, JSON_parse, h]

/-- C8, at a concrete input: the snapshot of a ledger is read back as that
ledger, and the JSON text `42` is assigned as it is. -/
theorem loadData_cases_witness :
    loadData
        (freshState (JSNum.num 0) (JSNum.num 2024)
          (some (SlotText.json (JSON_stringify marchState.appData)))) =
      Except.ok (AppData.ledger (reloadLedger marchState.appData)) ∧
    loadData (freshState (JSNum.num 0) (JSNum.num 2024) (some (SlotText.json (Json.num 42)))) =
      Except.ok (AppData.foreign (Json.num 42)) :=
  ⟨(loadData_cases (JSNum.num 0) (JSNum.num 2024)).2.2.2.1 _ _
      (asLedger_stringify marchState.appData),
    (loadData_cases (JSNum.num 0) (JSNum.num 2024)).2.2.2.2 _ rfl⟩

/-- C8 as stated fails: on a text that `JSON.parse` rejects `loadData` raises,
and on the JSON text `42`, which is parseable but no ledger, it completes with
`appData` equal to 42 and not to the empty ledger. -/
theorem loadData_malformed_raises :
    loadData (freshState (JSNum.num 0) (JSNum.num 2024) (some SlotText.malformed)) =
        Except.error JSError.syntaxError ∧
      loadData (freshState (JSNum.num 0) (JSNum.num 2024) (some (SlotText.json (Json.num 42)))) =
        Except.ok (AppData.foreign (Json.num 42)) ∧
      loadData (freshState (JSNum.num 0) (JSNum.num 2024) (some (SlotText.json (Json.num 42)))) ≠
        Except.ok (AppData.ledger emptyLedger) := by
  refine ⟨rfl, rfl, ?_⟩
  intro h
  have h2 :
      loadData (freshState (JSNum.num 0) (JSNum.num 2024) (some (SlotText.json (Json.num 42)))) =
        Except.ok (AppData.foreign (Json.num 42)) := rfl
  rw [h2] at h
  injection h with h
  cases h

theorem staysBefore_iff (D : DateCtor) (a b : Transaction) (da db : DateObj)
    (ha : D a.date = some da) (hb : D b.date = some db) :
    staysBefore D a b ↔ db.time ≤ da.time := by
  unfold staysBefore compareDates timeValue
  rw [ha, hb]
  simp only [JSNum.sub, JSNum.gt, JSNum.lt, decide_eq_false_iff_not, sub_pos, not_lt]
  exact Int.cast_le

theorem dateGE_trans (D : DateCtor) {a b c : Transaction} (h1 : DateGE D a b)
    (h2 : DateGE D b c) : DateGE D a c := by
  obtain ⟨da, db, ha, hb, hab⟩ := h1
  obtain ⟨db2, dc, hb2, hc, hbc⟩ := h2
  rw [hb] at hb2
  cases hb2
  exact ⟨da, dc, ha, hc, le_trans hbc hab⟩

theorem orderedInsert_dateGE (D : DateCtor) (x : Transaction) (hx : D x.date ≠ none) :
    ∀ l : List Transaction, (∀ y ∈ l, D y.date ≠ none) → l.Pairwise (DateGE D) →
      (l.orderedInsert (staysBefore D) x).Pairwise (DateGE D) := by
  intro l
  induction l with
  | nil => intro _ _; simp
  | cons y ys ih =>
    intro hv hs
    obtain ⟨dx, hdx⟩ := Option.ne_none_iff_exists'.1 hx
    obtain ⟨dy, hdy⟩ := Option.ne_none_iff_exists'.1 (hv y (List.mem_cons_self _ _))
    rw [List.pairwise_cons] at hs
    by_cases hxy : staysBefore D x y
    · rw [List.orderedInsert, if_pos hxy]
      have hge : DateGE D x y := ⟨dx, dy, hdx, hdy, (staysBefore_iff D x y dx dy hdx hdy).1 hxy⟩
      rw [List.pairwise_cons]
      refine ⟨?_, List.pairwise_cons.2 hs⟩
      intro z hz
      rcases List.mem_cons.1 hz with rfl | hz
      · exact hge
      · exact dateGE_trans D hge (hs.1 z hz)
    · rw [List.orderedInsert, if_neg hxy]
      have hlt : ¬ dy.time ≤ dx.time := fun h => hxy ((staysBefore_iff D x y dx dy hdx hdy).2 h)
      have hge : DateGE D y x := ⟨dy, dx, hdy, hdx, by omega⟩
      rw [List.pairwise_cons]
      refine ⟨?_, ih (fun z hz => hv z (List.mem_cons_of_mem _ hz)) hs.2⟩
      intro z hz
      rcases (List.mem_orderedInsert _).1 hz with rfl | hz
      · exact hge
      · exact hs.1 z hz

theorem insertionSort_dateGE (D : DateCtor) :
    ∀ l : List Transaction, (∀ y ∈ l, D y.date ≠ none) →
      (l.insertionSort (staysBefore D)).Pairwise (DateGE D) := by
  intro l
  induction l with
  | nil => intro _; simp
  | cons x xs ih =>
    intro hv
    rw [List.insertionSort]
    apply orderedInsert_dateGE D x (hv x (List.mem_cons_self _ _))
    · intro y hy
      exact hv y (List.mem_cons_of_mem _ ((List.mem_insertionSort _).1 hy))
    · exact ih (fun y hy => hv y (List.mem_cons_of_mem _ hy))

theorem taggedOfPeriod_valid (D : DateCtor) (s : AppState) :
    ∀ x ∈ taggedOfPeriod D s, D x.date ≠ none := by
  intro x hx
  unfold taggedOfPeriod incomeOfPeriod expensesOfPeriod at hx
  rcases List.mem_append.1 hx with h | h
  · obtain ⟨r, hr, rfl⟩ := List.mem_map.1 h
    have hf := (List.mem_filter.1 hr).2
    obtain ⟨d, hd, _⟩ := of_decide_eq_true hf
    show D r.date ≠ none
    rw [hd]
    simp
  · obtain ⟨r, hr, rfl⟩ := List.mem_map.1 h
    have hf := (List.mem_filter.1 hr).2
    obtain ⟨d, hd, _⟩ := of_decide_eq_true hf
    show D r.date ≠ none
    rw [hd]
    simp

theorem recentTransactions_eq (D : DateCtor) (s : AppState) :
    recentTransactions D s =
      ((taggedOfPeriod D s).insertionSort (staysBefore D)).take 10 := by
  unfold recentTransactions taggedOfPeriod
  rw [getFilteredIncome_eq, getFilteredExpenses_eq]

/-- C7. The list built in `renderRecentTransactions` is sorted by date in
non-increasing order; its length is the smaller of 10 and the number of
filtered income records plus the number of filtered expense records; together
with a list `rest` of left-out items it is a rearrangement of the tagged
records of the period (so it holds only those, each at most once); and no
left-out item has a date later than an item of the list. -/
theorem recentTransactions_spec (D : DateCtor) (s : AppState) :
    (recentTransactions D s).Pairwise (DateGE D) ∧
    (recentTransactions D s).length =
      min 10 ((getFilteredIncome D s).length + (getFilteredExpenses D s).length) ∧
    (recentTransactions D s).length = min 10 (getTotalTransactions D s) ∧
    (∀ x ∈ recentTransactions D s,
      (∃ r ∈ incomeOfPeriod D s, x = Transaction.ofIncome { r with type := "income" }) ∨
        (∃ r ∈ expensesOfPeriod D s, x = Transaction.ofExpense { r with type := "expense" })) ∧
    ∃ rest : List Transaction,
      List.Perm (recentTransactions D s ++ rest) (taggedOfPeriod D s) ∧
        ∀ x ∈ rest, ∀ y ∈ recentTransactions D s, DateGE D y x := by
  have hsorted := insertionSort_dateGE D (taggedOfPeriod D s) (taggedOfPeriod_valid D s)
  have hperm := List.perm_insertionSort (staysBefore D) (taggedOfPeriod D s)
  have hlen : (recentTransactions D s).length =
      min 10 ((getFilteredIncome D s).length + (getFilteredExpenses D s).length) := by
    unfold recentTransactions
    rw [List.length_take, List.length_insertionSort, List.length_append, List.length_map,
      List.length_map]
  rw [recentTransactions_eq]
  rw [recentTransactions_eq] at hlen
  refine ⟨hsorted.sublist (List.take_sublist _ _), hlen, hlen, ?_,
    ((taggedOfPeriod D s).insertionSort (staysBefore D)).drop 10, ?_, ?_⟩
  · intro x hx
    have hx2 : x ∈ taggedOfPeriod D s :=
      (List.mem_insertionSort _).1 (List.mem_of_mem_take hx)
    unfold taggedOfPeriod at hx2
    rcases List.mem_append.1 hx2 with h | h
    · obtain ⟨r, hr, rfl⟩ := List.mem_map.1 h
      exact Or.inl ⟨r, hr, rfl⟩
    · obtain ⟨r, hr, rfl⟩ := List.mem_map.1 h
      exact Or.inr ⟨r, hr, rfl⟩
  · rw [List.take_append_drop]
    exact hperm
  · intro x hx y hy
    have h := hsorted
    rw [← List.take_append_drop 10 ((taggedOfPeriod D s).insertionSort (staysBefore D)),
      List.pairwise_append] at h
    exact h.2.2 y hy x hx

theorem nextMonthClick_of_num (s : AppState) (k : Fin 12) (y : ℚ)
    (hm : s.selectedMonth = JSNum.num (k.val : ℚ)) (hy : s.selectedYear = JSNum.num y) :
    nextMonthClick s =
      if k.val = 11 then { s with selectedMonth := JSNum.num 0, selectedYear := JSNum.num (y + 1) }
      else { s with selectedMonth := JSNum.num ((k.val : ℚ) + 1) } := by
  unfold nextMonthClick
  simp only [hm, hy, JSNum.add, JSNum.gt, JSNum.lt]
  have hk : k.val < 12 := k.isLt
  by_cases h : k.val = 11
  · have h1 : (11 : ℚ) < (k.val : ℚ) + 1 := by rw [h]; norm_num
    simp [h, h1]
  · have h2 : k.val + 1 ≤ 11 := by omega
    have h1 : ¬ (11 : ℚ) < (k.val : ℚ) + 1 := by
      have : ((k.val + 1 : ℕ) : ℚ) ≤ 11 := by exact_mod_cast h2
      push_cast at this
      linarith
    simp [h, h1]

theorem prevMonthClick_of_num (s : AppState) (k : Fin 12) (y : ℚ)
    (hm : s.selectedMonth = JSNum.num (k.val : ℚ)) (hy : s.selectedYear = JSNum.num y) :
    prevMonthClick s =
      if k.val = 0 then { s with selectedMonth := JSNum.num 11, selectedYear := JSNum.num (y - 1) }
      else { s with selectedMonth := JSNum.num ((k.val : ℚ) - 1) } := by
  unfold prevMonthClick
  simp only [hm, hy, JSNum.sub, JSNum.lt]
  by_cases h : k.val = 0
  · simp [h]
  · have h2 : 1 ≤ k.val := by omega
    have h1 : ¬ (k.val : ℚ) - 1 < 0 := by
      have : ((1 : ℕ) : ℚ) ≤ (k.val : ℚ) := by exact_mod_cast h2
      push_cast at this
      linarith
    simp [h, h1]

theorem prev_next_of_num (s : AppState) (k : Fin 12) (y : ℚ)
    (hm : s.selectedMonth = JSNum.num (k.val : ℚ)) (hy : s.selectedYear = JSNum.num y) :
    prevMonthClick (nextMonthClick s) = s := by
  have hk : k.val < 12 := k.isLt
  rw [nextMonthClick_of_num s k y hm hy]
  by_cases h : k.val = 11
  · rw [if_pos h]
    have h2 :=
      prevMonthClick_of_num
        { s with selectedMonth := JSNum.num 0, selectedYear := JSNum.num (y + 1) }
        ⟨0, by omega⟩ (y + 1) (by simp) rfl
    rw [h2]
    have h11 : s.selectedMonth = JSNum.num 11 := by rw [hm, h]; norm_num
    cases s
    simp_all
  · rw [if_neg h]
    have hlt : k.val + 1 < 12 := by omega
    have h2 :=
      prevMonthClick_of_num { s with selectedMonth := JSNum.num ((k.val : ℚ) + 1) }
        ⟨k.val + 1, hlt⟩ y (by simp) hy
    rw [h2]
    cases s
    simp_all

theorem next_prev_of_num (s : AppState) (k : Fin 12) (y : ℚ)
    (hm : s.selectedMonth = JSNum.num (k.val : ℚ)) (hy : s.selectedYear = JSNum.num y) :
    nextMonthClick (prevMonthClick s) = s := by
  have hk : k.val < 12 := k.isLt
  rw [prevMonthClick_of_num s k y hm hy]
  by_cases h : k.val = 0
  · rw [if_pos h]
    have h2 :=
      nextMonthClick_of_num
        { s with selectedMonth := JSNum.num 11, selectedYear := JSNum.num (y - 1) }
        ⟨11, by omega⟩ (y - 1) (by simp) rfl
    rw [h2]
    have h0 : s.selectedMonth = JSNum.num 0 := by rw [hm, h]; norm_num
    cases s
    simp_all
  · rw [if_neg h]
    have hlt : k.val - 1 < 12 := by omega
    have hcast : (((k.val - 1 : ℕ)) : ℚ) = (k.val : ℚ) - 1 := by
      rw [Nat.cast_sub (by omega)]
      norm_num
    have h2 :=
      nextMonthClick_of_num { s with selectedMonth := JSNum.num ((k.val : ℚ) - 1) }
        ⟨k.val - 1, hlt⟩ y (by simp [hcast]) hy
    rw [h2]
    have hne : ¬ (k.val - 1 = 11) := by omega
    cases s
    simp_all

/-- C12. From a selected period whose month is one of 0 to 11 (and whose year
is a number), the next-month step and the previous-month step of
`setupMonthSelector` give again a month among 0 to 11; the next step adds
exactly 1 to `12 * year + month` and the previous step subtracts exactly 1
(December goes to January of the following year, January to December of the
preceding year); the previous step undoes the next one and the next step
undoes the previous one; and neither changes the ledger or the stored
snapshot. -/
theorem monthStep_spec (s : AppState) (k : Fin 12) (y : ℚ)
    (hm : s.selectedMonth = JSNum.num (k.val : ℚ)) (hy : s.selectedYear = JSNum.num y) :
    (∃ (k2 : Fin 12) (y2 : ℚ),
      (nextMonthClick s).selectedMonth = JSNum.num (k2.val : ℚ) ∧
      (nextMonthClick s).selectedYear = JSNum.num y2 ∧
      12 * y2 + (k2.val : ℚ) = 12 * y + (k.val : ℚ) + 1 ∧
      (k.val = 11 → k2.val = 0 ∧ y2 = y + 1) ∧ (k.val ≠ 11 → k2.val = k.val + 1 ∧ y2 = y)) ∧
    (∃ (k2 : Fin 12) (y2 : ℚ),
      (prevMonthClick s).selectedMonth = JSNum.num (k2.val : ℚ) ∧
      (prevMonthClick s).selectedYear = JSNum.num y2 ∧
      12 * y2 + (k2.val : ℚ) = 12 * y + (k.val : ℚ) - 1 ∧
      (k.val = 0 → k2.val = 11 ∧ y2 = y - 1) ∧ (k.val ≠ 0 → k2.val + 1 = k.val ∧ y2 = y)) ∧
    prevMonthClick (nextMonthClick s) = s ∧
    nextMonthClick (prevMonthClick s) = s ∧
    (nextMonthClick s).appData = s.appData ∧ (prevMonthClick s).appData = s.appData ∧
    (nextMonthClick s).storage = s.storage ∧ (prevMonthClick s).storage = s.storage := by
  have hk : k.val < 12 := k.isLt
  have hn := nextMonthClick_of_num s k y hm hy
  have hp := prevMonthClick_of_num s k y hm hy
  refine ⟨?_, ?_, prev_next_of_num s k y hm hy, next_prev_of_num s k y hm hy, ?_, ?_, ?_, ?_⟩
  · by_cases h : k.val = 11
    · rw [if_pos h] at hn
      refine ⟨⟨0, by omega⟩, y + 1, by rw [hn]; simp, by rw [hn], ?_, fun _ => ⟨rfl, rfl⟩,
        fun h2 => absurd h h2⟩
      rw [h]
      norm_num
      ring
    · rw [if_neg h] at hn
      have hlt : k.val + 1 < 12 := by omega
      refine ⟨⟨k.val + 1, hlt⟩, y, by rw [hn]; simp, by rw [hn]; exact hy, ?_,
        fun h2 => absurd h2 h, fun _ => ⟨rfl, rfl⟩⟩
      push_cast
      ring
  · by_cases h : k.val = 0
    · rw [if_pos h] at hp
      refine ⟨⟨11, by omega⟩, y - 1, by rw [hp]; simp, by rw [hp], ?_, fun _ => ⟨rfl, rfl⟩,
        fun h2 => absurd h h2⟩
      rw [h]
      norm_num
      ring
    · rw [if_neg h] at hp
      have hlt : k.val - 1 < 12 := by omega
      have hcast : (((k.val - 1 : ℕ)) : ℚ) = (k.val : ℚ) - 1 := by
        rw [Nat.cast_sub (by omega)]
        norm_num
      refine ⟨⟨k.val - 1, hlt⟩, y, by rw [hp]; simp [hcast], by rw [hp]; exact hy, ?_,
        fun h2 => absurd h2 h, fun _ => ⟨by simp; omega, rfl⟩⟩
      simp only [hcast]
      ring
  · rw [hn]; split <;> rfl
  · rw [hp]; split <;> rfl
  · rw [hn]; split <;> rfl
  · rw [hp]; split <;> rfl

/-- C12, at concrete inputs: from December 2024 the next step selects January
2025 and the previous step undoes it; from January 2024 the previous step
selects December 2023 and the next step undoes it. -/
theorem monthStep_spec_witness :
    prevMonthClick (nextMonthClick decemberState) = decemberState ∧
      (nextMonthClick decemberState).appData = decemberState.appData ∧
      nextMonthClick (prevMonthClick januaryState) = januaryState :=
  ⟨(monthStep_spec decemberState ⟨11, by omega⟩ 2024 (by decide!) (by decide!)).2.2.1,
    (monthStep_spec decemberState ⟨11, by omega⟩ 2024 (by decide!) (by decide!)).2.2.2.2.1,
    (monthStep_spec januaryState ⟨0, by omega⟩ 2024 (by decide!) (by decide!)).2.2.2.1⟩

theorem isNumeric_iff (v : JSVal) :
    v.isNumeric = true ↔ ∃ q, v = JSVal.number (JSNum.num q) := by
  cases v with
  | null => simp [JSVal.isNumeric]
  | number n => cases n <;> simp [JSVal.isNumeric]

theorem getTotalExpenses_eq_with (D : DateCtor) (s : AppState) :
    getTotalExpenses D s = getTotalExpensesWith JSNum.add D s := rfl

/-- C3 fails on the code.  After an expense whose amount is `NaN` and an
expense of 30 in the same category and month, the mapping gives the category
the value 30, while the sum of the amounts of the two expenses is `NaN`, which
is also what `getTotalExpenses` returns; with the same two expenses in the other
order the mapping gives `NaN`. -/
theorem expensesByCategory_drops_nan :
    getExpensesByCategory isoDate nanExpenseState =
        [("Food & Groceries", PropVal.amount (JSVal.number (JSNum.num 30)))] ∧
      categorySum isoDate nanExpenseState "Food & Groceries" = JSNum.nan ∧
      getTotalExpenses isoDate nanExpenseState = JSNum.nan ∧
      getExpensesByCategory isoDate nanLastExpenseState =
        [("Food & Groceries", PropVal.amount (JSVal.number JSNum.nan))] := by
  decide!

theorem expensesByCategory_inherited_label :
    getExpensesByCategory isoDate inheritedLabelState =
      [("constructor", PropVal.text "constructor" [JSVal.number (JSNum.num 50)])] := by
  decide!

theorem foldl_plus_start (plus : JSNum → JSNum → JSNum)
    (hassoc : ∀ a b c, plus (plus a b) c = plus a (plus b c)) (l : List JSNum) (x y : JSNum) :
    l.foldl plus (plus x y) = plus x (l.foldl plus y) := by
  induction l generalizing y with
  | nil => rfl
  | cons a l ih => rw [List.foldl_cons, hassoc, ih, List.foldl_cons]

theorem foldl_plus_cons (plus : JSNum → JSNum → JSNum)
    (hassoc : ∀ a b c, plus (plus a b) c = plus a (plus b c))
    (hcomm : ∀ a b, plus a b = plus b a) (x : JSNum) (l : List JSNum) :
    (x :: l).foldl plus (JSNum.num 0) = plus x (l.foldl plus (JSNum.num 0)) := by
  rw [List.foldl_cons, hcomm (JSNum.num 0) x, foldl_plus_start plus hassoc]

theorem sumOfValuesWith_eq (plus : JSNum → JSNum → JSNum) (c : Categories) :
    sumOfValuesWith plus c = (c.map (fun p => p.2.toNumber)).foldl plus (JSNum.num 0) := by
  unfold sumOfValuesWith
  rw [List.foldl_map]

theorem setProp_of_lookup_none (k : String) (v : PropVal) (c : Categories)
    (h : List.lookup k c = none) : setProp k v c = c ++ [(k, v)] := by
  induction c with
  | nil => rfl
  | cons p c ih =>
    obtain ⟨k1, v1⟩ := p
    by_cases hk : k = k1
    · simp [List.lookup, hk] at h
    · have h2 : (k == k1) = false := by simpa using hk
      have h3 : List.lookup k c = none := by simpa [List.lookup, h2] using h
      have h4 : ¬ k1 = k := fun e => hk e.symm
      simp [setProp, h4, ih h3]

theorem mem_setProp (k : String) (v : PropVal) (c : Categories) (p : String × PropVal)
    (h : p ∈ setProp k v c) : p = (k, v) ∨ p ∈ c := by
  induction c with
  | nil => simpa [setProp] using h
  | cons p1 c ih =>
    obtain ⟨k1, v1⟩ := p1
    by_cases hk : k1 = k
    · simp only [setProp, hk, ↓reduceIte, List.mem_cons] at h
      rcases h with h | h
      · exact Or.inl h
      · exact Or.inr (List.mem_cons_of_mem _ h)
    · simp only [setProp, hk, ↓reduceIte, List.mem_cons] at h
      rcases h with h | h
      · exact Or.inr (h ▸ List.mem_cons_self _ _)
      · rcases ih h with h | h
        · exact Or.inl h
        · exact Or.inr (List.mem_cons_of_mem _ h)

theorem mem_of_lookup (k : String) (v : PropVal) (c : Categories)
    (h : List.lookup k c = some v) : (k, v) ∈ c := by
  induction c with
  | nil => simp [List.lookup] at h
  | cons p c ih =>
    obtain ⟨k1, v1⟩ := p
    by_cases hk : k = k1
    · subst hk
      have : v1 = v := by simpa [List.lookup] using h
      subst this
      exact List.mem_cons_self _ _
    · have h2 : (k == k1) = false := by simpa using hk
      have h3 : List.lookup k c = some v := by simpa [List.lookup, h2] using h
      exact List.mem_cons_of_mem _ (ih h3)

theorem sum_setProp_of_lookup_some (plus : JSNum → JSNum → JSNum)
    (hassoc : ∀ a b c, plus (plus a b) c = plus a (plus b c))
    (hcomm : ∀ a b, plus a b = plus b a) (k : String) (v cur : PropVal) (a : JSNum) (c : Categories)
    (h : List.lookup k c = some cur) (hv : v.toNumber = plus cur.toNumber a) :
    ((setProp k v c).map (fun p => p.2.toNumber)).foldl plus (JSNum.num 0) =
      plus ((c.map (fun p => p.2.toNumber)).foldl plus (JSNum.num 0)) a := by
  induction c with
  | nil => simp [List.lookup] at h
  | cons p c ih =>
    obtain ⟨k1, v1⟩ := p
    by_cases hk : k = k1
    · subst hk
      have hv1 : v1 = cur := by simpa [List.lookup] using h
      subst hv1
      simp only [setProp, ↓reduceIte, List.map_cons]
      rw [foldl_plus_cons plus hassoc hcomm, foldl_plus_cons plus hassoc hcomm, hv,
        hassoc, hassoc, hcomm a]
    · have h2 : (k == k1) = false := by simpa using hk
      have h3 : List.lookup k c = some cur := by simpa [List.lookup, h2] using h
      have h4 : ¬ k1 = k := fun e => hk e.symm
      simp only [setProp, h4, ↓reduceIte, List.map_cons]
      rw [foldl_plus_cons plus hassoc hcomm, foldl_plus_cons plus hassoc hcomm,
        ih h3, hassoc]

theorem addToCategoryWith_of_none (plus : JSNum → JSNum → JSNum) (c : Categories)
    (e : Expense) (h : List.lookup e.category c = none) (hp1 : e.category ≠ "__proto__")
    (hp2 : e.category ∉ inheritedNames) :
    addToCategoryWith plus c e = setProp e.category (PropVal.amount e.amount) c := by
  unfold addToCategoryWith
  rw [h]
  simp only [if_neg hp1, if_neg hp2]

theorem addToCategoryWith_of_amount (plus : JSNum → JSNum → JSNum) (c : Categories)
    (e : Expense) (cur : JSVal) (h : List.lookup e.category c = some (PropVal.amount cur)) :
    addToCategoryWith plus c e =
      if cur.truthy = true then
        setProp e.category
          (PropVal.amount (JSVal.number (plus cur.toNumber e.amount.toNumber))) c
      else setProp e.category (PropVal.amount e.amount) c := by
  unfold addToCategoryWith
  rw [h]

theorem sum_foldl_addToCategoryWith (plus : JSNum → JSNum → JSNum)
    (hassoc : ∀ a b c, plus (plus a b) c = plus a (plus b c))
    (hcomm : ∀ a b, plus a b = plus b a) (hzero : ∀ a, plus (JSNum.num 0) a = a)
    (hclosed : ∀ a b : ℚ, ∃ c : ℚ, plus (JSNum.num a) (JSNum.num b) = JSNum.num c)
    (l : List Expense)
    (hnum : ∀ e ∈ l, ∃ q, e.amount = JSVal.number (JSNum.num q))
    (hlab : ∀ e ∈ l, e.category ≠ "__proto__" ∧ e.category ∉ inheritedNames) :
    (∀ p ∈ l.foldl (addToCategoryWith plus) [],
        ∃ q, p.2 = PropVal.amount (JSVal.number (JSNum.num q))) ∧
      ((l.foldl (addToCategoryWith plus) []).map (fun p => p.2.toNumber)).foldl plus
          (JSNum.num 0) =
        l.foldl (fun sum item => plus sum item.amount.toNumber) (JSNum.num 0) := by
  induction l using List.reverseRecOn with
  | nil => exact ⟨fun p hp => by simp at hp, rfl⟩
  | append_singleton l e ih =>
    obtain ⟨ihv, ihs⟩ := ih (fun x hx => hnum x (List.mem_append_left _ hx))
      (fun x hx => hlab x (List.mem_append_left _ hx))
    obtain ⟨qe, hqe⟩ := hnum e (by simp)
    obtain ⟨hp1, hp2⟩ := hlab e (by simp)
    rw [List.foldl_append, List.foldl_cons, List.foldl_nil, List.foldl_append, List.foldl_cons,
      List.foldl_nil, ← ihs]
    cases hlook : List.lookup e.category (l.foldl (addToCategoryWith plus) []) with
    | none =>
      rw [addToCategoryWith_of_none plus _ e hlook hp1 hp2, setProp_of_lookup_none _ _ _ hlook]
      refine ⟨?_, ?_⟩
      · intro p hp
        rcases List.mem_append.1 hp with hp | hp
        · exact ihv p hp
        · have : p = (e.category, PropVal.amount e.amount) := by simpa using hp
          exact ⟨qe, by rw [this, hqe]⟩
      · rw [List.map_append, List.foldl_append]
        rfl
    | some cur =>
      obtain ⟨qc, hqc⟩ := ihv _ (mem_of_lookup _ _ _ hlook)
      have hcur : cur = PropVal.amount (JSVal.number (JSNum.num qc)) := hqc
      subst hcur
      rw [addToCategoryWith_of_amount plus _ e _ hlook]
      by_cases ht : (JSVal.number (JSNum.num qc)).truthy = true
      · simp only [if_pos ht]
        obtain ⟨qs, hqs⟩ := hclosed qc qe
        refine ⟨?_, ?_⟩
        · intro p hp
          rcases mem_setProp _ _ _ _ hp with hp | hp
          · refine ⟨qs, ?_⟩
            rw [hp, hqe]
            show PropVal.amount (JSVal.number (plus (JSNum.num qc) (JSNum.num qe))) = _
            rw [hqs]
          · exact ihv p hp
        · exact sum_setProp_of_lookup_some plus hassoc hcomm _ _ _ _ _ hlook rfl
      · simp only [if_neg ht]
        have hq0 : qc = 0 := by simpa [JSVal.truthy, JSNum.truthy] using ht
        refine ⟨?_, ?_⟩
        · intro p hp
          rcases mem_setProp _ _ _ _ hp with hp | hp
          · exact ⟨qe, by rw [hp, hqe]⟩
          · exact ihv p hp
        · apply sum_setProp_of_lookup_some plus hassoc hcomm _ _ _ _ _ hlook
          show e.amount.toNumber = plus (JSNum.num qc) e.amount.toNumber
          rw [hq0, hzero]

/-- C11, as the code does it: for every addition `plus` that is associative
and commutative, has 0 as neutral element and gives a finite number on finite
numbers (the exact addition is one), when every expense of the selected period
has a numeric amount and a category label that names no inherited property, the
sum of the values of the mapping equals the total of the expenses of the
period. -/
theorem categories_sum_eq_total (plus : JSNum → JSNum → JSNum)
    (hassoc : ∀ a b c, plus (plus a b) c = plus a (plus b c))
    (hcomm : ∀ a b, plus a b = plus b a) (hzero : ∀ a, plus (JSNum.num 0) a = a)
    (hclosed : ∀ a b : ℚ, ∃ c : ℚ, plus (JSNum.num a) (JSNum.num b) = JSNum.num c)
    (D : DateCtor) (s : AppState)
    (hnum : ∀ e ∈ expensesOfPeriod D s, e.amount.isNumeric = true)
    (hlab : ∀ e ∈ expensesOfPeriod D s,
      e.category ≠ "__proto__" ∧ e.category ∉ inheritedNames) :
    sumOfValuesWith plus (getExpensesByCategoryWith plus D s) =
      getTotalExpensesWith plus D s := by
  rw [sumOfValuesWith_eq]
  unfold getExpensesByCategoryWith getTotalExpensesWith
  rw [getFilteredExpenses_eq]
  exact (sum_foldl_addToCategoryWith plus hassoc hcomm hzero hclosed _
    (fun e he => (isNumeric_iff _).1 (hnum e he)) hlab).2

/-- C11, at a concrete input, with the exact addition: three expenses in two
categories; the mapping has the values 52.55 and 700, and their sum is the
total 752.55. -/
theorem categories_sum_eq_total_witness :
    getExpensesByCategory isoDate mixedState =
        [("Food & Groceries", PropVal.amount (JSVal.number (JSNum.num (1051 / 20)))),
          ("Housing", PropVal.amount (JSVal.number (JSNum.num 700)))] ∧
      getTotalExpenses isoDate mixedState = JSNum.num (15051 / 20) ∧
      sumOfValuesWith JSNum.add (getExpensesByCategory isoDate mixedState) =
        getTotalExpenses isoDate mixedState :=
  ⟨by decide!, by decide!,
    categories_sum_eq_total JSNum.add (fun a b c => add_assoc a b c) (fun a b => add_comm a b)
      (fun a => zero_add a) (fun a b => ⟨a + b, rfl⟩) isoDate mixedState (by decide!)
      (by decide!)⟩

/-- C11 as stated fails, with the addition of doubles.  The amounts 0.1, 0.1
and 1.1, the first and the last in one category, are numeric and their labels
name no inherited property; the mapping has the values 1.2000000000000002 and
0.1, whose sum is 1.3000000000000003, while the total is 1.3. -/
theorem categories_sum_rounds_apart :
    (∀ e ∈ expensesOfPeriod isoDate roundingState,
      e.amount.isNumeric = true ∧ e.category ≠ "__proto__" ∧ e.category ∉ inheritedNames) ∧
    getExpensesByCategoryWith doubleAdd isoDate roundingState =
      [("Food & Groceries",
          PropVal.amount (JSVal.number (toDouble (12000000000000002 / 10 ^ 16)))),
        ("Transportation", PropVal.amount (JSVal.number (toDouble (1 / 10))))] ∧
    sumOfValuesWith doubleAdd (getExpensesByCategoryWith doubleAdd isoDate roundingState) =
      toDouble (13000000000000003 / 10 ^ 16) ∧
    getTotalExpensesWith doubleAdd isoDate roundingState = toDouble (13 / 10) ∧
    sumOfValuesWith doubleAdd (getExpensesByCategoryWith doubleAdd isoDate roundingState) ≠
      getTotalExpensesWith doubleAdd isoDate roundingState := by
  decide!

end FinAssist
